import Mathlib

/-!
Verification of the OSINT reconnaissance tool (`src/domain.py`).

Shallow embedding: all network effects are oracles collected in an `Env`
record; each collector of the `OsintTool` class becomes a pure function
returning the report entries it writes into `self.output["results"]`,
together with a log of the external calls it performs, so that claims
about "zero network calls" or "exactly one attempt per port" are statable.
The JSON artifact written by `save_results` is modelled by an explicit
serializer (`dumpVal`, mirroring `json.dump(..., indent=4)`) and parser
(`parseRun`, modelling `json.loads` on the fragment of JSON the tool
emits: null, strings, arrays, objects).
-/

namespace Osint

/-- Key of a Python dict as it appears in `self.output`: either a `str`
key or an `int` key (the `open_ports` dict built by `scan_common_ports`
is keyed by the integer port number). -/
inductive JKey where
  | kstr (s : String)
  | kint (n : Nat)
deriving DecidableEq

/-- In-memory Python value built by the tool: `None`, strings, lists and
dicts (insertion-ordered, as Python dicts are).  The tool never stores
numbers or booleans in `self.output`, so those are not needed. -/
inductive PyVal where
  | pnull
  | pstr (s : String)
  | plist (xs : List PyVal)
  | pdict (fields : List (JKey × PyVal))

/-- The Unicode `Nd` (decimal digit) code-point ranges: exactly the
characters Python's `\d` matches on a `str` pattern (generated from
CPython's `re` module; each range is an inclusive pair). -/
def ndRanges : List (Nat × Nat) :=
  [(48, 57), (1632, 1641), (1776, 1785), (1984, 1993), (2406, 2415), (2534, 2543),
   (2662, 2671), (2790, 2799), (2918, 2927), (3046, 3055), (3174, 3183), (3302, 3311),
   (3430, 3439), (3558, 3567), (3664, 3673), (3792, 3801), (3872, 3881), (4160, 4169),
   (4240, 4249), (6112, 6121), (6160, 6169), (6470, 6479), (6608, 6617), (6784, 6793),
   (6800, 6809), (6992, 7001), (7088, 7097), (7232, 7241), (7248, 7257), (42528, 42537),
   (43216, 43225), (43264, 43273), (43472, 43481), (43504, 43513), (43600, 43609),
   (44016, 44025), (65296, 65305), (66720, 66729), (68912, 68921), (69734, 69743),
   (69872, 69881), (69942, 69951), (70096, 70105), (70384, 70393), (70736, 70745),
   (70864, 70873), (71248, 71257), (71360, 71369), (71472, 71481), (71904, 71913),
   (72016, 72025), (72784, 72793), (73040, 73049), (73120, 73129), (92768, 92777),
   (92864, 92873), (93008, 93017), (120782, 120831), (123200, 123209), (123632, 123641),
   (125264, 125273), (130032, 130041)]

/-- Python's `\d` on a `str` pattern: any Unicode decimal digit. -/
def isPyDigit (c : Char) : Bool :=
  ndRanges.any fun r => decide (r.1 ≤ c.toNat) && decide (c.toNat ≤ r.2)

/-- `(\d{1,3}\.){n}\d{1,3}$` matcher with Python `re` semantics: `\d`
matches any Unicode decimal digit, and `$` matches at end of input or
just before one newline at the end of input.  Consumes a maximal digit
run, requires its length to be between 1 and 3, then a literal `.` and
recursion (`n` times); at the end the remainder must be empty or a
single newline.  Since `\d` matches neither `.` nor the trailing
newline, the greedy regex with backtracking is equivalent to this
deterministic maximal-run matcher. -/
def matchQuad : Nat → List Char → Bool
  | n, cs =>
    let ds := cs.takeWhile isPyDigit
    let rest := cs.dropWhile isPyDigit
    decide (1 ≤ ds.length) && decide (ds.length ≤ 3) &&
      match n with
      | 0 => rest.isEmpty || rest == ['\n']
      | Nat.succ k => rest.head? == some '.' && matchQuad k rest.tail

/-- `is_ip_address` (src/domain.py:40-43): matches the target against
`r'^(\d{1,3}\.){3}\d{1,3}$'`. -/
def is_ip_address (target : String) : Bool :=
  matchQuad 3 target.data

/-- Joining character groups with literal `.` separators; used by the
spec-side readings of the dotted-quad pattern. -/
def joinDots : List (List Char) → List Char
  | [] => []
  | [g] => g
  | g :: g2 :: gs => g ++ '.' :: joinDots (g2 :: gs)

/-- One to three ASCII digit characters: the claim's literal reading of
a "1-to-3-digit group". -/
def goodGroup (g : List Char) : Prop :=
  g ≠ [] ∧ g.length ≤ 3 ∧ ∀ c ∈ g, c.isDigit

/-- Spec-side definition (the claim's words, for claim C9): the input
is four 1-to-3-digit groups separated by periods. -/
def isDottedQuad (s : String) : Prop :=
  ∃ gs : List (List Char), gs.length = 4 ∧ s.data = joinDots gs ∧ ∀ g ∈ gs, goodGroup g

/-- One to three Unicode decimal digits: the source regex's `\d{1,3}`. -/
def pyGroup (g : List Char) : Prop :=
  g ≠ [] ∧ g.length ≤ 3 ∧ ∀ c ∈ g, isPyDigit c = true

/-- Spec-side reading of the source pattern under Python `re`
semantics: four groups of one to three Unicode decimal digits separated
by periods, optionally followed by a single trailing newline. -/
def isDottedQuadPy (s : String) : Prop :=
  ∃ gs : List (List Char), gs.length = 4 ∧
    (s.data = joinDots gs ∨ s.data = joinDots gs ++ ['\n']) ∧ ∀ g ∈ gs, pyGroup g

/-- Simplified WHOIS record as extracted by `get_whois`
(src/domain.py:60-77).  `creation_date`/`expiration_date` are passed
through `str(...)` in the source, so they are modelled as the resulting
strings; `registrar` and `name_servers` may be `None` in the library's
response (serialized as JSON `null`); `emails` is replaced by `[]` when
falsy (`whois_info.emails if whois_info.emails else []`). -/
structure WhoisInfo where
  registrar : Option String
  creation_date : String
  expiration_date : String
  name_servers : Option (List String)
  emails : Option (List String)

/-- Environment of external collaborators: name resolution, the WHOIS
library (a `none` result models `whois.whois` raising), per-record-type
DNS answers (`none` models `dns.resolver.resolve` raising), TCP connect
outcome per (ip, port), `socket.getservbyport` (`none` models
`OSError`), and the HTTP client by URL and timeout (`none` models
`requests.get` raising).  The `resolve` and `connect` oracles describe
runs free of uncaught exceptions; the raising paths of
`socket.gethostbyname` and `connect_ex` are modelled separately by
`get_ip_exc` and `scanResults_exc`. -/
structure Env where
  resolve : String → Option String
  whoisResult : Option WhoisInfo
  dnsAnswer : String → String → Option (List String)
  connect : String → Nat → Bool
  serviceName : Nat → Option String
  httpGet : String → Nat → Option (List (String × String))

/-- `get_ip` (src/domain.py:45-58) over the collapsed resolver oracle:
models the runs in which the resolution call returns or fails with the
caught `socket.gaierror`.  Returns the resolved address (`none` on
`socket.gaierror`), the entries written into
`self.output["results"]`, and the number of `socket.gethostbyname`
calls performed.  The uncaught-exception path of the resolution call is
modelled by `get_ip_exc` below. -/
def get_ip (target : String) (resolve : String → Option String) :
    Option String × List (JKey × PyVal) × Nat :=
  if is_ip_address target then
    (some target, [], 0)
  else
    match resolve target with
    | some ip => (some ip, [(JKey.kstr "ip_address", PyVal.pstr ip)], 1)
    | none => (none, [(JKey.kstr "ip_address", PyVal.pstr "Not found")], 1)

/-- Outcome of one `socket.gethostbyname` call: success, the
`socket.gaierror` that the source catches, or any other exception —
e.g. the `UnicodeError` raised by the idna hostname encoding for inputs
such as `"foo..com"` (empty label) — which the source does not catch. -/
inductive ResolveOutcome where
  | resolved (ip : String)
  | gaierror
  | raisedOther
deriving DecidableEq

/-- The collapsed (`Option`) view of a non-raising resolution outcome,
connecting the refined resolver oracle to `Env.resolve`. -/
def outcomeOption : ResolveOutcome → Option String
  | ResolveOutcome.resolved ip => some ip
  | ResolveOutcome.gaierror => none
  | ResolveOutcome.raisedOther => none

/-- Result of `get_ip` in the refined model: a normal return carrying
the returned value and the entries written, or an uncaught exception
propagating out of the method (crashing the run). -/
inductive GetIpOutcome where
  | ok (ip : Option String) (entries : List (JKey × PyVal))
  | raised

/-- `get_ip` (src/domain.py:45-58) with the exception path made
explicit: the `try` block catches only `socket.gaierror`; any other
exception from the resolution call propagates to the caller.  The
second component counts `socket.gethostbyname` calls. -/
def get_ip_exc (target : String) (resolve : String → ResolveOutcome) :
    GetIpOutcome × Nat :=
  if is_ip_address target then
    (GetIpOutcome.ok (some target) [], 0)
  else
    match resolve target with
    | ResolveOutcome.resolved ip =>
        (GetIpOutcome.ok (some ip) [(JKey.kstr "ip_address", PyVal.pstr ip)], 1)
    | ResolveOutcome.gaierror =>
        (GetIpOutcome.ok none [(JKey.kstr "ip_address", PyVal.pstr "Not found")], 1)
    | ResolveOutcome.raisedOther => (GetIpOutcome.raised, 1)

/-- `get_whois` (src/domain.py:60-77): one blocking lookup; any
exception collapses to the `"Lookup failed"` marker. -/
def whoisEntry (w : Option WhoisInfo) : JKey × PyVal :=
  (JKey.kstr "whois",
   match w with
   | none => PyVal.pstr "Lookup failed"
   | some wi => PyVal.pdict
      [(JKey.kstr "registrar",
        match wi.registrar with | none => PyVal.pnull | some r => PyVal.pstr r),
       (JKey.kstr "creation_date", PyVal.pstr wi.creation_date),
       (JKey.kstr "expiration_date", PyVal.pstr wi.expiration_date),
       (JKey.kstr "name_servers",
        match wi.name_servers with
        | none => PyVal.pnull
        | some ns => PyVal.plist (ns.map PyVal.pstr)),
       (JKey.kstr "emails", PyVal.plist ((wi.emails.getD []).map PyVal.pstr))])

/-- The seven fixed DNS record types (src/domain.py:81). -/
def recordTypes : List String := ["A", "AAAA", "MX", "NS", "TXT", "SOA", "CNAME"]

/-- The mapping built by `get_dns_records` for a hostname: one
independent query per record type; a query that errors contributes
nothing (`except Exception: pass`). -/
def dnsFields (target : String) (dnsA : String → String → Option (List String)) :
    List (JKey × PyVal) :=
  recordTypes.filterMap fun rt =>
    (dnsA target rt).map fun rs => (JKey.kstr rt, PyVal.plist (rs.map PyVal.pstr))

/-- `get_dns_records` (src/domain.py:79-100): skipped entirely (with the
marker string and zero queries) for a literal IP address; otherwise one
query per record type.  Returns the report entry and the list of
`(target, record_type)` queries issued. -/
def get_dns_records (target : String) (dnsA : String → String → Option (List String)) :
    (JKey × PyVal) × List (String × String) :=
  if is_ip_address target then
    ((JKey.kstr "dns_records", PyVal.pstr "Skipped for IP address"), [])
  else
    ((JKey.kstr "dns_records", PyVal.pdict (dnsFields target dnsA)),
     recordTypes.map fun rt => (target, rt))

/-- The fixed scanned port list (src/domain.py:108-109). -/
def commonPorts : List Nat :=
  [21, 22, 23, 25, 53, 80, 110, 115, 135, 139, 143, 443, 445,
   1433, 3306, 3389, 5060, 5900, 8080, 8443]

/-- `max_workers` of the `ThreadPoolExecutor` (src/domain.py:121). -/
def maxWorkers : Nat := 10

/-- `check_port` (src/domain.py:114-119) over the collapsed connector
oracle: one TCP connect attempt with a 1-second timeout; returns
`(port, result == 0)`.  The socket is always closed; the outcome oracle
`connect` tells whether `connect_ex` returned 0 for `(ip, port)`.  This
models attempts on which `connect_ex` completes with an error
indicator; the raising path of `connect_ex` is modelled by
`check_port_exc` below. -/
def check_port (connect : String → Nat → Bool) (ip : String) (port : Nat) : Nat × Bool :=
  (port, connect ip port)

/-- The per-port results in the order `executor.map` returns them:
input (= ascending port) order, one entry per port. -/
def portResults (ip : String) (connect : String → Nat → Bool) : List (Nat × Bool) :=
  commonPorts.map (check_port connect ip)

/-- Outcome of one `connect_ex` call: an error indicator (`0` means the
connect succeeded; timeouts and refusals yield nonzero codes), or the
`socket.gaierror` that `connect_ex` still raises when the address
string cannot be resolved (e.g. `"999.999.999.999"`, which the
classifier accepts as an Address). -/
inductive ConnectOutcome where
  | code (n : Nat)
  | gaierror
deriving DecidableEq

/-- Whether an attempt outcome counts as open: `connect_ex` returned 0. -/
def outcomeOpen : ConnectOutcome → Bool
  | ConnectOutcome.code n => n == 0
  | ConnectOutcome.gaierror => false

/-- `check_port` (src/domain.py:114-119) with the exception path made
explicit: `none` models the uncaught `socket.gaierror` escaping the
worker function. -/
def check_port_exc (connect : String → Nat → ConnectOutcome) (ip : String)
    (port : Nat) : Option (Nat × Bool) :=
  match connect ip port with
  | ConnectOutcome.code n => some (port, n == 0)
  | ConnectOutcome.gaierror => none

/-- `list(executor.map(f, l))` (src/domain.py:121-122) with worker
exceptions: results come back in input order, but a worker's uncaught
exception is re-raised when its result is retrieved, aborting the whole
list construction (`none`). -/
def scanList : List Nat → (Nat → Option (Nat × Bool)) → Option (List (Nat × Bool))
  | [], _ => some []
  | p :: ps, f =>
    match f p with
    | none => none
    | some r =>
      match scanList ps f with
      | none => none
      | some rs => some (r :: rs)

/-- The port scan's `results` list in the refined model: `none` when
some attempt raised `socket.gaierror` and the scan aborted. -/
def scanResults_exc (ip : String) (connect : String → Nat → ConnectOutcome) :
    Option (List (Nat × Bool)) :=
  scanList commonPorts (check_port_exc connect ip)

/-- The result of thread-pool task `i`: `check_port` on the `i`-th port
of the fixed list. -/
def taskResult (ip : String) (connect : String → Nat → Bool) (i : Nat) : Nat × Bool :=
  check_port connect ip (commonPorts.getD i 0)

/-- Store the result of task `i` into the executor's result table. -/
def writeSlot (store : Nat → Option (Nat × Bool)) (i : Nat) (v : Nat × Bool) :
    Nat → Option (Nat × Bool) :=
  fun j => if j = i then some v else store j

/-- Replay the concurrent execution: tasks complete in the order given
by `order` (a completion schedule, an arbitrary interleaving); each
completion writes its result into the slot of its own task index,
exactly as `ThreadPoolExecutor.map` stores results. -/
def runCompletions (ip : String) (connect : String → Nat → Bool) :
    List Nat → (Nat → Option (Nat × Bool)) → Nat → Option (Nat × Bool)
  | [], store => store
  | i :: rest, store =>
      runCompletions ip connect rest (writeSlot store i (taskResult ip connect i))

/-- The sequence emitted by `executor.map` under completion schedule
`order`: the result table is read back in task-index order
(src/domain.py:121-122), which is what `list(executor.map(...))`
returns regardless of completion order. -/
def poolMap (ip : String) (connect : String → Nat → Bool) (order : List Nat) :
    List (Nat × Bool) :=
  (List.range commonPorts.length).filterMap
    (runCompletions ip connect order (fun _ => none))

/-- The `open_ports` dict (src/domain.py:124-131): iterate the results
in emitted order, keep open ports, label with `socket.getservbyport`
or `"unknown"` on `OSError`.  Keys are the integer port numbers. -/
def openPortsDict (ip : String) (connect : String → Nat → Bool)
    (service : Nat → Option String) : List (JKey × PyVal) :=
  (portResults ip connect).filterMap fun r =>
    if r.2 then some (JKey.kint r.1, PyVal.pstr ((service r.1).getD "unknown"))
    else none

/-- `scan_common_ports` (src/domain.py:102-136): with no resolved
address it records the skip marker and performs zero connection
attempts; otherwise every port of the fixed list is attempted exactly
once.  Returns the report entry and the list of `(ip, port)` connection
attempts made. -/
def scan_common_ports (ip : Option String) (connect : String → Nat → Bool)
    (service : Nat → Option String) : (JKey × PyVal) × List (String × Nat) :=
  match ip with
  | none =>
      ((JKey.kstr "port_scan", PyVal.pstr "Skipped due to DNS resolution failure"), [])
  | some addr =>
      ((JKey.kstr "port_scan", PyVal.pdict (openPortsDict addr connect service)),
       commonPorts.map fun p => (addr, p))

/-- `url = f"{protocol}://{self.target}"` (src/domain.py:143). -/
def urlOf (proto target : String) : String :=
  proto ++ "://" ++ target

/-- The loop body of `get_http_headers` (src/domain.py:138-152): try
each protocol in order with a 5-second timeout; on the first success
record that protocol's headers and `break`; failures are swallowed.
Returns the entries written and the `(url, timeout)` requests issued. -/
def tryProtocols (target : String)
    (httpGet : String → Nat → Option (List (String × String))) :
    List String → List (JKey × PyVal) × List (String × Nat)
  | [] => ([], [])
  | proto :: rest =>
      match httpGet (urlOf proto target) 5 with
      | some hs =>
          ([(JKey.kstr (proto ++ "_headers"),
             PyVal.pdict (hs.map fun kv => (JKey.kstr kv.1, PyVal.pstr kv.2)))],
           [(urlOf proto target, 5)])
      | none =>
          let r := tryProtocols target httpGet rest
          (r.1, (urlOf proto target, 5) :: r.2)

/-- `get_http_headers` with the fixed protocol preference list
`["https", "http"]` (src/domain.py:140). -/
def get_http_headers (target : String)
    (httpGet : String → Nat → Option (List (String × String))) :
    List (JKey × PyVal) × List (String × Nat) :=
  tryProtocols target httpGet ["https", "http"]

/-- The `self.output["results"]` dict at the end of `run_recon`
(src/domain.py:161-170), in insertion order: `get_ip`, `get_whois`,
`get_dns_records`, `scan_common_ports` (fed the address returned by
`get_ip`), `get_http_headers`. -/
def resultsEntries (target : String) (env : Env) : List (JKey × PyVal) :=
  (get_ip target env.resolve).2.1 ++
  [whoisEntry env.whoisResult] ++
  [(get_dns_records target env.dnsAnswer).1] ++
  [(scan_common_ports (get_ip target env.resolve).1 env.connect env.serviceName).1] ++
  (get_http_headers target env.httpGet).1

/-- The complete `self.output` value serialized by `save_results`:
`{"target": target, "results": {...}}` (src/domain.py:38). -/
def reconOutput (target : String) (env : Env) : PyVal :=
  PyVal.pdict
    [(JKey.kstr "target", PyVal.pstr target),
     (JKey.kstr "results", PyVal.pdict (resultsEntries target env))]

/-- An execution trace of a worker pool with `workers` worker threads
running `numTasks` one-shot tasks (the semantics of
`ThreadPoolExecutor(max_workers=workers)`, src/domain.py:121): task `i`
occupies the real-time interval `[startT i, finishT i)` on worker
`workerOf i`, and tasks sharing a worker run sequentially (their
intervals are disjoint). -/
structure PoolTrace (numTasks workers : Nat) where
  startT : Nat → Nat
  finishT : Nat → Nat
  workerOf : Nat → Nat
  start_lt_finish : ∀ i, i < numTasks → startT i < finishT i
  worker_lt : ∀ i, i < numTasks → workerOf i < workers
  seq_on_worker : ∀ i, i < numTasks → ∀ j, j < numTasks → i ≠ j →
    workerOf i = workerOf j → finishT i ≤ startT j ∨ finishT j ≤ startT i

/-- The set of tasks in flight at instant `t`. -/
def inFlight (n w : Nat) (tr : PoolTrace n w) (t : Nat) : Finset Nat :=
  (Finset.range n).filter fun i => tr.startT i ≤ t ∧ t < tr.finishT i

/-- A concrete trace of the 20 fixed-port probe tasks on 10 workers:
task `i` runs on worker `i % 10` during `[2*(i/10), 2*(i/10)+1)`. -/
def traceW : PoolTrace commonPorts.length maxWorkers where
  startT := fun i => 2 * (i / 10)
  finishT := fun i => 2 * (i / 10) + 1
  workerOf := fun i => i % 10
  start_lt_finish := by decide
  worker_lt := by decide
  seq_on_worker := by decide

/-- A completion schedule in task order. -/
def orderFwd : List Nat := [0,1,2,3,4,5,6,7,8,9,10,11,12,13,14,15,16,17,18,19]

/-- A completion schedule in reversed task order. -/
def orderRev : List Nat := [19,18,17,16,15,14,13,12,11,10,9,8,7,6,5,4,3,2,1,0]

/-- Environment in which nothing succeeds: resolution fails, WHOIS
raises, every DNS query errors, every port is closed, every HTTP
request raises. -/
def envU : Env where
  resolve := fun _ => none
  whoisResult := none
  dnsAnswer := fun _ _ => none
  connect := fun _ _ => false
  serviceName := fun _ => none
  httpGet := fun _ _ => none

/-- DNS oracle answering only `A` queries. -/
def envDnsW : String → String → Option (List String) :=
  fun _ rt => if rt = "A" then some ["93.184.216.34"] else none

/-- HTTP oracle that succeeds only for `https://h.example`. -/
def envHttpW : String → Nat → Option (List (String × String)) :=
  fun url _ => if url = "https://h.example" then some [("Server", "nginx")] else none

/-- Environment for the C5 counterexample run: the hostname resolves,
but both HTTP protocol attempts fail. -/
def envC5 : Env where
  resolve := fun _ => some "9.9.9.9"
  whoisResult := none
  dnsAnswer := fun _ _ => none
  connect := fun _ _ => false
  serviceName := fun _ => none
  httpGet := fun _ _ => none

/-- Environment for the C10 counterexample run: port 21 is open and is
labelled `ftp`, so the report's `port_scan` dict has the integer key
`21`. -/
def envC10 : Env where
  resolve := fun _ => none
  whoisResult := none
  dnsAnswer := fun _ _ => none
  connect := fun _ p => p == 21
  serviceName := fun p => if p == 21 then some "ftp" else none
  httpGet := fun _ _ => none

/-- Resolver double failing with the caught `socket.gaierror`. -/
def resolveGai : String → ResolveOutcome := fun _ => ResolveOutcome.gaierror

/-- Resolver double whose underlying call raises an exception other
than `socket.gaierror` (the `UnicodeError` path of idna encoding). -/
def resolveRaise : String → ResolveOutcome := fun _ => ResolveOutcome.raisedOther

/-- Connector double: every attempt completes with `ECONNREFUSED`. -/
def connRefused : String → Nat → ConnectOutcome := fun _ _ => ConnectOutcome.code 111

/-- Connector double whose address resolution raises
`socket.gaierror` on every attempt. -/
def connGai : String → Nat → ConnectOutcome := fun _ _ => ConnectOutcome.gaierror

/-- JSON whitespace accepted between tokens. -/
def isWsChar (c : Char) : Bool :=
  c == ' ' || c == '\t' || c == '\n' || c == '\x0d'

/-- Skip leading JSON whitespace. -/
def skipWs : List Char → List Char
  | [] => []
  | c :: cs => if isWsChar c then skipWs cs else c :: cs

/-- Lowercase hex digit, as `json.dump` emits in `\uXXXX` escapes. -/
def hexDigitChar (n : Nat) : Char :=
  match n with
  | 0 => '0' | 1 => '1' | 2 => '2' | 3 => '3' | 4 => '4'
  | 5 => '5' | 6 => '6' | 7 => '7' | 8 => '8' | 9 => '9'
  | 10 => 'a' | 11 => 'b' | 12 => 'c' | 13 => 'd' | 14 => 'e' | _ => 'f'

/-- Value of a hex digit accepted by the JSON string parser. -/
def hexVal? (c : Char) : Option Nat :=
  if 48 ≤ c.toNat ∧ c.toNat ≤ 57 then some (c.toNat - 48)
  else if 97 ≤ c.toNat ∧ c.toNat ≤ 102 then some (c.toNat - 87)
  else if 65 ≤ c.toNat ∧ c.toNat ≤ 70 then some (c.toNat - 55)
  else none

/-- Combined value of four hex digits, most significant first. -/
def hexVal4 (a b c d : Char) : Option Nat :=
  match hexVal? a, hexVal? b, hexVal? c, hexVal? d with
  | some x, some y, some z, some w => some (4096 * x + 256 * y + 16 * z + w)
  | _, _, _, _ => none

/-- The four hex digits of `n < 0x10000`, most significant first. -/
def hex4 (n : Nat) : List Char :=
  [hexDigitChar (n / 4096 % 16), hexDigitChar (n / 256 % 16),
   hexDigitChar (n / 16 % 16), hexDigitChar (n % 16)]

/-- Encoding of one character of a JSON string, following `json.dump`'s
default `ensure_ascii=True` encoder: `"` and `\` are backslash-escaped,
other printable ASCII is emitted raw, the five control characters with
short escapes use them, and every other code point becomes `\uXXXX`
(a surrogate pair for code points above `0xFFFF`). -/
def encodeChar (c : Char) : List Char :=
  if c = '"' then ['\\', '"']
  else if c = '\\' then ['\\', '\\']
  else if 32 ≤ c.toNat ∧ c.toNat ≤ 126 then [c]
  else if c = '\x08' then ['\\', 'b']
  else if c = '\t' then ['\\', 't']
  else if c = '\n' then ['\\', 'n']
  else if c = '\x0c' then ['\\', 'f']
  else if c = '\x0d' then ['\\', 'r']
  else if c.toNat < 65536 then '\\' :: 'u' :: hex4 c.toNat
  else
    '\\' :: 'u' :: hex4 (55296 + (c.toNat - 65536) / 1024) ++
      '\\' :: 'u' :: hex4 (56320 + (c.toNat - 65536) % 1024)

/-- Body of a JSON string literal: each character encoded. -/
def encChars : List Char → List Char
  | [] => []
  | c :: cs => encodeChar c ++ encChars cs

/-- A complete JSON string literal with its quotes. -/
def encodeString (s : String) : List Char :=
  '"' :: (encChars s.data ++ ['"'])

/-- A dict key as `json.dump` writes it: string keys through the string
encoder; `int` keys are stringified and then written as a JSON string —
this is where the int-keyed `open_ports` dict loses its key type. -/
def dumpKey : JKey → List Char
  | JKey.kstr s => encodeString s
  | JKey.kint n => encodeString (Nat.repr n)

/-- `indent=4` indentation at nesting depth `d`. -/
def indentChars (d : Nat) : List Char :=
  List.replicate (4 * d) ' '

mutual

/-- Serialization of a value by `json.dump(obj, f, indent=4)` at nesting
depth `d`: `null`, escaped strings, and pretty-printed arrays and
objects (empty ones compact, as `[]` and braces). -/
def dumpVal : PyVal → Nat → List Char
  | PyVal.pnull, _ => ['n', 'u', 'l', 'l']
  | PyVal.pstr s, _ => encodeString s
  | PyVal.plist [], _ => ['[', ']']
  | PyVal.plist (x :: xs), d =>
      '[' :: '\n' :: (indentChars (d + 1) ++ dumpVal x (d + 1) ++
        dumpListRest xs (d + 1) ++ '\n' :: (indentChars d ++ [']']))
  | PyVal.pdict [], _ => ['\x7b', '\x7d']
  | PyVal.pdict ((k, v) :: fs), d =>
      '\x7b' :: '\n' :: (indentChars (d + 1) ++ dumpKey k ++ ':' :: ' ' ::
        dumpVal v (d + 1) ++ dumpFieldsRest fs (d + 1) ++
        '\n' :: (indentChars d ++ ['\x7d']))

/-- The `",\n" ++ indent ++ item` tail of a nonempty array. -/
def dumpListRest : List PyVal → Nat → List Char
  | [], _ => []
  | x :: xs, d => ',' :: '\n' :: (indentChars d ++ dumpVal x d ++ dumpListRest xs d)

/-- The `",\n" ++ indent ++ key ++ ": " ++ value` tail of a nonempty object. -/
def dumpFieldsRest : List (JKey × PyVal) → Nat → List Char
  | [], _ => []
  | (k, v) :: fs, d =>
      ',' :: '\n' :: (indentChars d ++ dumpKey k ++ ':' :: ' ' ::
        dumpVal v d ++ dumpFieldsRest fs d)

end

/-- The string a key is rendered as: itself for `str` keys, the decimal
form for `int` keys. -/
def keyStr : JKey → String
  | JKey.kstr s => s
  | JKey.kint n => Nat.repr n

/-- `json.loads` key normalization: integer keys were written as decimal
strings, so they come back as strings. -/
def normKey : JKey → JKey
  | JKey.kstr s => JKey.kstr s
  | JKey.kint n => JKey.kstr (Nat.repr n)

mutual

/-- The value `json.loads` reconstructs from `json.dump`'s output:
identical except that every `int` dict key has become its decimal
string form. -/
def pyNormalize : PyVal → PyVal
  | PyVal.pnull => PyVal.pnull
  | PyVal.pstr s => PyVal.pstr s
  | PyVal.plist xs => PyVal.plist (pyNormalizeL xs)
  | PyVal.pdict fs => PyVal.pdict (pyNormalizeF fs)

/-- Key normalization mapped over array elements. -/
def pyNormalizeL : List PyVal → List PyVal
  | [] => []
  | x :: xs => pyNormalize x :: pyNormalizeL xs

/-- Key normalization mapped over object fields. -/
def pyNormalizeF : List (JKey × PyVal) → List (JKey × PyVal)
  | [] => []
  | (k, v) :: fs => (normKey k, pyNormalize v) :: pyNormalizeF fs

end

mutual

/-- Fuel needed by the parser for a value. -/
def pySize : PyVal → Nat
  | PyVal.pnull => 1
  | PyVal.pstr _ => 1
  | PyVal.plist xs => 1 + pySizeL xs
  | PyVal.pdict fs => 1 + pySizeF fs

/-- Fuel needed for the tail of an array. -/
def pySizeL : List PyVal → Nat
  | [] => 1
  | x :: xs => 1 + pySize x + pySizeL xs

/-- Fuel needed for the tail of an object. -/
def pySizeF : List (JKey × PyVal) → Nat
  | [] => 1
  | (_, v) :: fs => 1 + pySize v + pySizeF fs

end

/-- Decoding of a single-character JSON escape. -/
def escChar? (e : Char) : Option Char :=
  if e = '"' then some '"'
  else if e = '\\' then some '\\'
  else if e = '/' then some '/'
  else if e = 'b' then some '\x08'
  else if e = 'f' then some '\x0c'
  else if e = 'n' then some '\n'
  else if e = 'r' then some '\x0d'
  else if e = 't' then some '\t'
  else none

mutual

/-- JSON string-body parser (the part of `json.loads` after an opening
quote): literal characters up to the closing quote, backslash escapes,
`\uXXXX` code units with surrogate-pair combination; raw control
characters are rejected (strict mode); lone surrogate escapes are not
representable as `Char` and are rejected. -/
def parseStr : List Char → Option (List Char × List Char)
  | [] => none
  | c :: rest =>
    if c = '"' then some ([], rest)
    else if c = '\\' then parseEsc rest
    else if c.toNat < 32 then none
    else (parseStr rest).map fun p => (c :: p.1, p.2)

/-- Decode one escape (after the backslash): `\uXXXX` (possibly a
high surrogate expecting its mate) or a single-character escape. -/
def parseEsc : List Char → Option (List Char × List Char)
  | 'u' :: a :: b :: c2 :: d2 :: rest2 =>
    (match hexVal4 a b c2 d2 with
     | none => none
     | some n =>
       if 55296 ≤ n ∧ n ≤ 56319 then parseLoSur n rest2
       else if 56320 ≤ n ∧ n ≤ 57343 then none
       else (parseStr rest2).map fun p => (Char.ofNat n :: p.1, p.2))
  | e :: rest2 =>
    (match escChar? e with
     | some ch => (parseStr rest2).map fun p => (ch :: p.1, p.2)
     | none => none)
  | [] => none

/-- Decode the low half of a surrogate pair whose high half was `n`,
then combine into one code point. -/
def parseLoSur (n : Nat) : List Char → Option (List Char × List Char)
  | '\\' :: 'u' :: a :: b :: c2 :: d2 :: rest =>
    (match hexVal4 a b c2 d2 with
     | none => none
     | some m =>
       if 56320 ≤ m ∧ m ≤ 57343 then
         (parseStr rest).map fun p =>
           (Char.ofNat (65536 + (n - 55296) * 1024 + (m - 56320)) :: p.1, p.2)
       else none)
  | _ => none

end

/-- Parser nonterminal: a JSON value, the tail of an array (starting at
the separator or closing bracket), or the tail of an object. -/
inductive PMode where
  | val
  | elems
  | fields

/-- Recursive-descent parser for the JSON fragment `json.dump` emits
from a report (null, strings, arrays, objects), modelling `json.loads`.
Whitespace-insensitive between tokens; `fuel` bounds recursion depth.
In `elems`/`fields` mode the returned value is the `plist`/`pdict` of
the remaining items. -/
def parseRun : Nat → PMode → List Char → Option (PyVal × List Char)
  | 0, _, _ => none
  | Nat.succ fuel, PMode.val, cs =>
    match skipWs cs with
    | 'n' :: 'u' :: 'l' :: 'l' :: rest => some (PyVal.pnull, rest)
    | '"' :: rest =>
        (parseStr rest).map fun p => (PyVal.pstr (String.mk p.1), p.2)
    | '[' :: rest =>
        let cs2 := skipWs rest
        if cs2.head? = some ']' then some (PyVal.plist [], cs2.tail)
        else
          match parseRun fuel PMode.val cs2 with
          | some (v, rest2) =>
            (match parseRun fuel PMode.elems rest2 with
             | some (PyVal.plist xs, rest3) => some (PyVal.plist (v :: xs), rest3)
             | _ => none)
          | none => none
    | '\x7b' :: rest =>
        let cs2 := skipWs rest
        if cs2.head? = some '\x7d' then some (PyVal.pdict [], cs2.tail)
        else
          match cs2 with
          | '"' :: rest2 =>
            (match parseStr rest2 with
             | some (kchars, rest3) =>
               (match skipWs rest3 with
                | ':' :: rest4 =>
                  (match parseRun fuel PMode.val rest4 with
                   | some (v, rest5) =>
                     (match parseRun fuel PMode.fields rest5 with
                      | some (PyVal.pdict fs, rest6) =>
                          some (PyVal.pdict ((JKey.kstr (String.mk kchars), v) :: fs), rest6)
                      | _ => none)
                   | none => none)
                | _ => none)
             | none => none)
          | _ => none
    | _ => none
  | Nat.succ fuel, PMode.elems, cs =>
    match skipWs cs with
    | ']' :: rest => some (PyVal.plist [], rest)
    | ',' :: rest =>
        match parseRun fuel PMode.val rest with
        | some (v, rest2) =>
          (match parseRun fuel PMode.elems rest2 with
           | some (PyVal.plist xs, rest3) => some (PyVal.plist (v :: xs), rest3)
           | _ => none)
        | none => none
    | _ => none
  | Nat.succ fuel, PMode.fields, cs =>
    match skipWs cs with
    | '\x7d' :: rest => some (PyVal.pdict [], rest)
    | ',' :: rest =>
        match skipWs rest with
        | '"' :: rest2 =>
          (match parseStr rest2 with
           | some (kchars, rest3) =>
             (match skipWs rest3 with
              | ':' :: rest4 =>
                (match parseRun fuel PMode.val rest4 with
                 | some (v, rest5) =>
                   (match parseRun fuel PMode.fields rest5 with
                    | some (PyVal.pdict fs, rest6) =>
                        some (PyVal.pdict ((JKey.kstr (String.mk kchars), v) :: fs), rest6)
                    | _ => none)
                 | none => none)
              | _ => none)
           | none => none)
        | _ => none
    | _ => none

/-- Serialize the in-memory report value as `save_results` does
(`json.dump(self.output, f, indent=4)`, src/domain.py:154-158). -/
def dumpPy (v : PyVal) : List Char :=
  dumpVal v 0

/-- Parse a serialized artifact back (`json.loads`): one value, then
only trailing whitespace. -/
def parsePy (cs : List Char) : Option PyVal :=
  match parseRun (cs.length + 1) PMode.val cs with
  | some (v, rest) => if skipWs rest = [] then some v else none
  | none => none

/-!  Theorems.  -/

/-- After replaying a completion schedule, slot `j` holds task `j`'s
result exactly when task `j` appears in the schedule; slots are never
cross-written. -/
theorem runCompletions_spec (ip : String) (connect : String → Nat → Bool)
    (order : List Nat) (store : Nat → Option (Nat × Bool)) (j : Nat) :
    runCompletions ip connect order store j =
      if j ∈ order then some (taskResult ip connect j) else store j := by
  induction order generalizing store with
  | nil => simp [runCompletions]
  | cons i rest ih =>
    rw [runCompletions, ih]
    by_cases hjr : j ∈ rest
    · simp [hjr]
    · by_cases hji : j = i
      · subst hji; simp [hjr, writeSlot]
      · simp [hjr, hji, writeSlot]

/-- A `filterMap` whose function is total on the list is a `map`. -/
theorem filterMap_some_eq_map {α β : Type} (l : List α) (f : α → Option β) (g : α → β)
    (h : ∀ a ∈ l, f a = some (g a)) : l.filterMap f = l.map g := by
  induction l with
  | nil => rfl
  | cons a t ih =>
    rw [List.filterMap_cons, h a (List.mem_cons_self a t), List.map_cons,
        ih fun b hb => h b (List.mem_cons_of_mem a hb)]

/-- Under any completion schedule in which every task completes, the
sequence emitted by the pool equals the sequential per-port map in
input (ascending-port) order. -/
theorem poolMap_eq_portResults (ip : String) (connect : String → Nat → Bool)
    (order : List Nat) (hcov : ∀ j, j < commonPorts.length → j ∈ order) :
    poolMap ip connect order = portResults ip connect := by
  unfold poolMap
  rw [filterMap_some_eq_map _ _ (taskResult ip connect)
      fun j hj => by rw [runCompletions_spec, if_pos (hcov j (List.mem_range.1 hj))]]
  rfl

/-- The ports of the emitted results are exactly the fixed port list. -/
theorem map_fst_portResults (ip : String) (connect : String → Nat → Bool) :
    (portResults ip connect).map Prod.fst = commonPorts := by
  rw [portResults, List.map_map]
  exact List.map_id commonPorts

/-- C1: for every resolved address and every completion order of the
concurrent connection attempts over the fixed port list, the emitted
port-result sequence is identical across runs observing the same
per-port outcomes (completion order never leaks), equals the sequential
per-port map, and is sorted strictly ascending by port number. -/
theorem C1_sorted_deterministic (ip : String) (connect : String → Nat → Bool)
    (o1 o2 : List Nat)
    (h1 : ∀ j, j < commonPorts.length → j ∈ o1)
    (h2 : ∀ j, j < commonPorts.length → j ∈ o2) :
    poolMap ip connect o1 = poolMap ip connect o2 ∧
    poolMap ip connect o1 = portResults ip connect ∧
    List.Chain' (· < ·) ((poolMap ip connect o1).map Prod.fst) := by
  have e1 := poolMap_eq_portResults ip connect o1 h1
  have e2 := poolMap_eq_portResults ip connect o2 h2
  refine ⟨e1.trans e2.symm, e1, ?_⟩
  rw [e1, map_fst_portResults]
  simp [commonPorts]

/-- Witness for C1: an all-closed connector probed under the forward and
the reversed completion schedules. -/
theorem C1_sorted_deterministic_witness :
    poolMap "127.0.0.1" (fun _ _ => false) orderFwd =
      poolMap "127.0.0.1" (fun _ _ => false) orderRev ∧
    poolMap "127.0.0.1" (fun _ _ => false) orderFwd =
      portResults "127.0.0.1" (fun _ _ => false) ∧
    List.Chain' (· < ·)
      ((poolMap "127.0.0.1" (fun _ _ => false) orderFwd).map Prod.fst) :=
  C1_sorted_deterministic "127.0.0.1" (fun _ _ => false) orderFwd orderRev
    (by decide) (by decide)

/-- C2: in any execution trace of the probe's worker pool
(`ThreadPoolExecutor(max_workers=10)`), at most 10 connection attempts
are in flight at any instant, for any number of tasks. -/
theorem C2_bounded_concurrency (n : Nat) (tr : PoolTrace n maxWorkers) (t : Nat) :
    (inFlight n maxWorkers tr t).card ≤ 10 := by
  have hsub : (inFlight n maxWorkers tr t).card ≤ (Finset.range maxWorkers).card := by
    apply Finset.card_le_card_of_injOn tr.workerOf
    · intro i hi
      simp only [inFlight, Finset.mem_filter, Finset.mem_range] at hi
      exact Finset.mem_range.2 (tr.worker_lt i hi.1)
    · intro i hi j hj hw
      simp only [inFlight, Finset.coe_filter, Set.mem_setOf_eq, Finset.mem_range] at hi hj
      by_contra hne
      rcases tr.seq_on_worker i hi.1 j hj.1 hne hw with h | h
      · have := hi.2.2; have := hj.2.1; omega
      · have := hj.2.2; have := hi.2.1; omega
  exact hsub.trans (by rw [Finset.card_range]; rfl)

/-- Witness for C2: the concrete 20-task, 10-worker trace `traceW`. -/
theorem C2_bounded_concurrency_witness :
    (inFlight commonPorts.length maxWorkers traceW 0).card ≤ 10 :=
  C2_bounded_concurrency commonPorts.length traceW 0

/-- C3: when resolution failed (the address is `None`), the port scan
records exactly the skip marker in the report and performs zero
connection attempts. -/
theorem C3_skip_on_unresolved (target : String) (env : Env)
    (h1 : is_ip_address target = false) (h2 : env.resolve target = none) :
    scan_common_ports (get_ip target env.resolve).1 env.connect env.serviceName =
      ((JKey.kstr "port_scan", PyVal.pstr "Skipped due to DNS resolution failure"), []) ∧
    (JKey.kstr "port_scan", PyVal.pstr "Skipped due to DNS resolution failure")
      ∈ resultsEntries target env := by
  have hip : (get_ip target env.resolve).1 = none := by
    simp [get_ip, h1, h2]
  constructor
  · rw [hip]; rfl
  · unfold resultsEntries
    rw [hip]
    simp [scan_common_ports]

/-- Witness for C3 at the concrete failing environment `envU`. -/
theorem C3_skip_on_unresolved_witness :
    scan_common_ports (get_ip "example.test" envU.resolve).1 envU.connect envU.serviceName =
      ((JKey.kstr "port_scan", PyVal.pstr "Skipped due to DNS resolution failure"), []) ∧
    (JKey.kstr "port_scan", PyVal.pstr "Skipped due to DNS resolution failure")
      ∈ resultsEntries "example.test" envU :=
  C3_skip_on_unresolved "example.test" envU (by decide) rfl

/-- A duplicate-free list containing `p` filters down to exactly `[p]`
under the predicate `(· == p)`. -/
theorem filter_beq_singleton (l : List Nat) (p : Nat) (hnd : l.Nodup) (hp : p ∈ l) :
    l.filter (fun q => q == p) = [p] := by
  induction l with
  | nil => cases hp
  | cons a t ih =>
    rw [List.nodup_cons] at hnd
    rcases List.mem_cons.1 hp with rfl | hpt
    · rw [List.filter_cons, if_pos (beq_self_eq_true p)]
      have ht : t.filter (fun q => q == p) = [] := by
        rw [List.filter_eq_nil_iff]
        intro b hb
        simp only [beq_iff_eq]
        rintro rfl
        exact hnd.1 hb
      rw [ht]
    · have hap : ¬ ((a == p) = true) := by
        simp only [beq_iff_eq]
        rintro rfl
        exact hnd.1 hpt
      rw [List.filter_cons, if_neg hap]
      exact ih hnd.2 hpt

/-- When no worker raises, `list(executor.map(...))` is the input-order
map over the port list. -/
theorem scanList_all_some (l : List Nat) (f : Nat → Option (Nat × Bool))
    (g : Nat → Nat × Bool) (h : ∀ p ∈ l, f p = some (g p)) :
    scanList l f = some (l.map g) := by
  induction l with
  | nil => rfl
  | cons a t ih =>
    simp only [scanList]
    rw [h a (List.mem_cons_self a t),
        ih fun p hp => h p (List.mem_cons_of_mem a hp)]
    rfl

/-- A worker whose attempt raises aborts the whole map. -/
theorem scanList_none_of_mem (l : List Nat) (f : Nat → Option (Nat × Bool))
    (p : Nat) (hp : p ∈ l) (hf : f p = none) : scanList l f = none := by
  induction l with
  | nil => cases hp
  | cons a t ih =>
    simp only [scanList]
    rcases List.mem_cons.1 hp with rfl | hpt
    · rw [hf]
    · cases hfa : f a with
      | none => rfl
      | some r => rw [ih hpt]

/-- C4 (amended): for every probed port whose `connect_ex` attempt
completes with an error indicator, exactly one attempt is made and
exactly one `PortResult` is produced, with `open = false` on a nonzero
code (timeout or refusal) — never retried, never duplicated; but an
attempt on which `connect_ex` raises `socket.gaierror` (an unresolvable
address string) propagates through `list(executor.map(...))` and aborts
the scan with no `PortResult` at all. -/
theorem C4_attempt_semantics_amended (ip : String)
    (connect : String → Nat → ConnectOutcome) (p : Nat) :
    (p ∈ commonPorts →
      (∀ q ∈ commonPorts, connect ip q ≠ ConnectOutcome.gaierror) →
      scanResults_exc ip connect =
        some (commonPorts.map fun q => (q, outcomeOpen (connect ip q))) ∧
      (commonPorts.map fun q => (q, outcomeOpen (connect ip q))).filter
          (fun r => r.1 == p) = [(p, outcomeOpen (connect ip p))] ∧
      ((commonPorts.map fun q => (ip, q)).filter (fun a => a.2 == p)).length = 1) ∧
    (p ∈ commonPorts → connect ip p = ConnectOutcome.gaierror →
      scanResults_exc ip connect = none) := by
  unfold scanResults_exc
  constructor
  · intro hp hok
    have hnd : commonPorts.Nodup := by decide
    refine ⟨?_, ?_, ?_⟩
    · apply scanList_all_some
      intro q hq
      cases hcq : connect ip q with
      | code n => simp [check_port_exc, hcq, outcomeOpen]
      | gaierror => exact absurd hcq (hok q hq)
    · rw [List.filter_map]
      have hc : ((fun (r : Nat × Bool) => r.1 == p) ∘
          fun q => (q, outcomeOpen (connect ip q))) = fun q => q == p := rfl
      rw [hc, filter_beq_singleton _ _ hnd hp]
      rfl
    · rw [List.filter_map]
      have hc : ((fun (a : String × Nat) => a.2 == p) ∘ fun q => (ip, q)) =
          fun q => q == p := rfl
      rw [hc, filter_beq_singleton _ _ hnd hp]
      rfl
  · intro hp hgai
    apply scanList_none_of_mem _ _ p hp
    simp [check_port_exc, hgai]

/-- Witness for the amended C4: an all-refused scan of `127.0.0.1`
emits exactly one closed `PortResult` for port 445, and the
classifier-accepted `"999.999.999.999"` aborts the scan. -/
theorem C4_attempt_semantics_amended_witness :
    scanResults_exc "127.0.0.1" connRefused =
      some (commonPorts.map fun q => (q, false)) ∧
    (commonPorts.map fun q => ((q : Nat), false)).filter
        (fun r => r.1 == 445) = [(445, false)] ∧
    ((commonPorts.map fun q => ("127.0.0.1", q)).filter
        (fun a => a.2 == 445)).length = 1 ∧
    scanResults_exc "999.999.999.999" connGai = none :=
  ⟨((C4_attempt_semantics_amended "127.0.0.1" connRefused 445).1
      (by decide) (by decide)).1,
   ((C4_attempt_semantics_amended "127.0.0.1" connRefused 445).1
      (by decide) (by decide)).2.1,
   ((C4_attempt_semantics_amended "127.0.0.1" connRefused 445).1
      (by decide) (by decide)).2.2,
   (C4_attempt_semantics_amended "999.999.999.999" connGai 21).2 (by decide) rfl⟩

/-- C4 as stated is false on the code: `connect_ex` raises
`socket.gaierror` on an address string it cannot resolve, and
`"999.999.999.999"` is classified as an Address and handed to the scan
unchanged, so every attempt raises; `list(executor.map(...))`
re-raises the exception and the scan aborts with zero `PortResult`s
instead of yielding `(port, open = false)` entries. -/
theorem C4_attempt_semantics_counterexample :
    is_ip_address "999.999.999.999" = true ∧
    (get_ip "999.999.999.999" envU.resolve).1 = some "999.999.999.999" ∧
    scanResults_exc "999.999.999.999" connGai = none := by
  refine ⟨by decide, rfl, rfl⟩

/-- On runs whose resolution call does not raise an uncaught exception,
the refined resolver model agrees with the collapsed `get_ip` through
`outcomeOption`. -/
theorem get_ip_exc_agrees (target : String) (resolve : String → ResolveOutcome)
    (h : resolve target ≠ ResolveOutcome.raisedOther) :
    get_ip_exc target resolve =
      (GetIpOutcome.ok (get_ip target (fun s => outcomeOption (resolve s))).1
        (get_ip target (fun s => outcomeOption (resolve s))).2.1,
       (get_ip target (fun s => outcomeOption (resolve s))).2.2) := by
  unfold get_ip_exc get_ip
  by_cases hip : is_ip_address target
  · simp [hip]
  · cases hr : resolve target with
    | resolved ip => simp [hip, hr, outcomeOption]
    | gaierror => simp [hip, hr, outcomeOption]
    | raisedOther => exact absurd hr h

/-- Closed instance of the refined-model agreement. -/
theorem get_ip_exc_agrees_witness :
    get_ip_exc "example.test" resolveGai =
      (GetIpOutcome.ok (get_ip "example.test"
          (fun s => outcomeOption (resolveGai s))).1
        (get_ip "example.test" (fun s => outcomeOption (resolveGai s))).2.1,
       (get_ip "example.test" (fun s => outcomeOption (resolveGai s))).2.2) :=
  get_ip_exc_agrees "example.test" resolveGai fun h => ResolveOutcome.noConfusion h

/-- C6 (amended): for an Address target, `get_ip` returns the target
string unchanged, writes nothing, and makes zero resolution calls; for
a Hostname whose resolution fails with `socket.gaierror`, it returns
`None` after exactly one call, records `"Not found"`, and that error
does not propagate; but a resolution call that raises any other
exception (e.g. the `UnicodeError` of idna encoding) propagates
uncaught out of `get_ip` after the single call. -/
theorem C6_resolver_contract_amended (target : String)
    (resolve : String → ResolveOutcome) :
    (is_ip_address target = true →
      get_ip_exc target resolve = (GetIpOutcome.ok (some target) [], 0)) ∧
    (is_ip_address target = false → resolve target = ResolveOutcome.gaierror →
      get_ip_exc target resolve =
        (GetIpOutcome.ok none [(JKey.kstr "ip_address", PyVal.pstr "Not found")], 1)) ∧
    (is_ip_address target = false → resolve target = ResolveOutcome.raisedOther →
      get_ip_exc target resolve = (GetIpOutcome.raised, 1)) := by
  refine ⟨?_, ?_, ?_⟩
  · intro h; simp [get_ip_exc, h]
  · intro h1 h2; simp [get_ip_exc, h1, h2]
  · intro h1 h2; simp [get_ip_exc, h1, h2]

/-- Witness for the amended C6: a literal address target, a hostname
failing with `socket.gaierror`, and a hostname whose resolution call
raises another exception. -/
theorem C6_resolver_contract_amended_witness :
    get_ip_exc "93.184.216.34" resolveGai =
      (GetIpOutcome.ok (some "93.184.216.34") [], 0) ∧
    get_ip_exc "example.test" resolveGai =
      (GetIpOutcome.ok none [(JKey.kstr "ip_address", PyVal.pstr "Not found")], 1) ∧
    get_ip_exc "foo..com" resolveRaise = (GetIpOutcome.raised, 1) :=
  ⟨(C6_resolver_contract_amended "93.184.216.34" resolveGai).1 (by decide),
   (C6_resolver_contract_amended "example.test" resolveGai).2.1 (by decide) rfl,
   (C6_resolver_contract_amended "foo..com" resolveRaise).2.2 (by decide) rfl⟩

/-- C6 as stated is false on the code: the `try` in `get_ip` catches
only `socket.gaierror` (src/domain.py:55); a hostname such as
`"foo..com"` (empty label) makes `socket.gethostbyname` raise
`UnicodeError` from the idna encoding, which propagates to the caller
and crashes the run instead of recording `"Not found"`. -/
theorem C6_resolver_counterexample :
    (get_ip_exc "foo..com" resolveRaise).1 = GetIpOutcome.raised ∧
    (get_ip_exc "foo..com" resolveRaise).1 ≠
      GetIpOutcome.ok none [(JKey.kstr "ip_address", PyVal.pstr "Not found")] := by
  constructor
  · rfl
  · intro h
    exact GetIpOutcome.noConfusion h

/-- C7: the HTTP collector tries `https` then `http`, each with a
5-second timeout; if `https` succeeds it records the `https_headers`
entry and issues no `http` request at all; if `https` fails and `http`
succeeds it records `http_headers` after both requests; if both fail it
records nothing (Absent) after exactly the two requests. -/
theorem C7_http_first_success (target : String)
    (httpGet : String → Nat → Option (List (String × String))) :
    (∀ hs, httpGet (urlOf "https" target) 5 = some hs →
      get_http_headers target httpGet =
        ([(JKey.kstr "https_headers",
           PyVal.pdict (hs.map fun kv => (JKey.kstr kv.1, PyVal.pstr kv.2)))],
         [(urlOf "https" target, 5)])) ∧
    (∀ hs, httpGet (urlOf "https" target) 5 = none →
      httpGet (urlOf "http" target) 5 = some hs →
      get_http_headers target httpGet =
        ([(JKey.kstr "http_headers",
           PyVal.pdict (hs.map fun kv => (JKey.kstr kv.1, PyVal.pstr kv.2)))],
         [(urlOf "https" target, 5), (urlOf "http" target, 5)])) ∧
    (httpGet (urlOf "https" target) 5 = none → httpGet (urlOf "http" target) 5 = none →
      get_http_headers target httpGet =
        ([], [(urlOf "https" target, 5), (urlOf "http" target, 5)])) := by
  refine ⟨?_, ?_, ?_⟩
  · intro hs h; simp [get_http_headers, tryProtocols, h]
  · intro hs h1 h2; simp [get_http_headers, tryProtocols, h1, h2]
  · intro h1 h2; simp [get_http_headers, tryProtocols, h1, h2]

/-- Witness for C7: `envHttpW` succeeds on https for `h.example` and on
nothing for `x.example`. -/
theorem C7_http_first_success_witness :
    get_http_headers "h.example" envHttpW =
      ([(JKey.kstr "https_headers",
         PyVal.pdict [(JKey.kstr "Server", PyVal.pstr "nginx")])],
       [(urlOf "https" "h.example", 5)]) ∧
    get_http_headers "x.example" envHttpW =
      ([], [(urlOf "https" "x.example", 5), (urlOf "http" "x.example", 5)]) :=
  ⟨(C7_http_first_success "h.example" envHttpW).1 [("Server", "nginx")] rfl,
   (C7_http_first_success "x.example" envHttpW).2.2 rfl rfl⟩

/-- C8: for an Address target, the DNS collector issues zero queries and
records exactly the skip marker; for a Hostname it issues one query per
each of the seven fixed record types, a succeeding type appears in the
mapping with its records, and an erroring type contributes no key to the
mapping while the collector still returns normally. -/
theorem C8_dns_collector_contract (target : String)
    (dnsA : String → String → Option (List String)) :
    (is_ip_address target = true →
      get_dns_records target dnsA =
        ((JKey.kstr "dns_records", PyVal.pstr "Skipped for IP address"), [])) ∧
    (is_ip_address target = false →
      (get_dns_records target dnsA).1 =
        (JKey.kstr "dns_records", PyVal.pdict (dnsFields target dnsA)) ∧
      (get_dns_records target dnsA).2 = recordTypes.map (fun rt => (target, rt)) ∧
      (get_dns_records target dnsA).2.length = 7 ∧
      (∀ rt rs, rt ∈ recordTypes → dnsA target rt = some rs →
        (JKey.kstr rt, PyVal.plist (rs.map PyVal.pstr)) ∈ dnsFields target dnsA) ∧
      (∀ rt, dnsA target rt = none →
        JKey.kstr rt ∉ (dnsFields target dnsA).map Prod.fst)) := by
  constructor
  · intro h; simp [get_dns_records, h]
  · intro h
    refine ⟨by simp [get_dns_records, h], by simp [get_dns_records, h],
            by simp [get_dns_records, h, recordTypes], ?_, ?_⟩
    · intro rt rs hmem hsome
      exact List.mem_filterMap.2 ⟨rt, hmem, by rw [hsome]; rfl⟩
    · intro rt hnone hmem
      rcases List.mem_map.1 hmem with ⟨pair, hpair, hfst⟩
      rcases List.mem_filterMap.1 hpair with ⟨rt2, _, hf⟩
      rcases Option.map_eq_some'.1 hf with ⟨rs, hrs, hpe⟩
      rw [← hpe] at hfst
      simp only [JKey.kstr.injEq] at hfst
      rw [hfst] at hrs
      rw [hnone] at hrs
      cases hrs

/-- Witness for C8: a literal-address target is skipped with zero
queries; for `example.com` the answering type `A` is in the mapping and
the erroring type `MX` is absent from it. -/
theorem C8_dns_collector_contract_witness :
    get_dns_records "93.184.216.34" envDnsW =
      ((JKey.kstr "dns_records", PyVal.pstr "Skipped for IP address"), []) ∧
    (JKey.kstr "A", PyVal.plist [PyVal.pstr "93.184.216.34"])
      ∈ dnsFields "example.com" envDnsW ∧
    JKey.kstr "MX" ∉ (dnsFields "example.com" envDnsW).map Prod.fst :=
  ⟨(C8_dns_collector_contract "93.184.216.34" envDnsW).1 (by decide),
   ((C8_dns_collector_contract "example.com" envDnsW).2 (by decide)).2.2.2.1
     "A" ["93.184.216.34"] (by decide) rfl,
   ((C8_dns_collector_contract "example.com" envDnsW).2 (by decide)).2.2.2.2 "MX" rfl⟩

/-- Every character kept by `takeWhile` satisfies the predicate. -/
theorem pred_of_mem_takeWhile {p : Char → Bool} (l : List Char) :
    ∀ c ∈ l.takeWhile p, p c = true := by
  induction l with
  | nil => intro c hc; cases hc
  | cons a t ih =>
    intro c hc
    rw [List.takeWhile_cons] at hc
    by_cases hpa : p a = true
    · rw [if_pos hpa] at hc
      rcases List.mem_cons.1 hc with rfl | hct
      · exact hpa
      · exact ih c hct
    · rw [if_neg hpa] at hc; cases hc

/-- `takeWhile` over an all-satisfying list is the identity. -/
theorem takeWhile_of_all {p : Char → Bool} (l : List Char)
    (h : ∀ c ∈ l, p c = true) : l.takeWhile p = l := by
  induction l with
  | nil => rfl
  | cons a t ih =>
    rw [List.takeWhile_cons, if_pos (h a (List.mem_cons_self a t)),
        ih fun c hc => h c (List.mem_cons_of_mem a hc)]

/-- `dropWhile` over an all-satisfying list is empty. -/
theorem dropWhile_of_all {p : Char → Bool} (l : List Char)
    (h : ∀ c ∈ l, p c = true) : l.dropWhile p = [] := by
  induction l with
  | nil => rfl
  | cons a t ih =>
    rw [List.dropWhile_cons, if_pos (h a (List.mem_cons_self a t)),
        ih fun c hc => h c (List.mem_cons_of_mem a hc)]

/-- The deterministic maximal-run matcher agrees with the declarative
reading of `(\d{1,3}\.){n}\d{1,3}$` under Python `re` semantics: the
input is `n + 1` groups of one-to-three Unicode decimal digits joined
by periods, optionally followed by a single trailing newline. -/
theorem matchQuad_iff (n : Nat) : ∀ cs : List Char,
    matchQuad n cs = true ↔
      ∃ gs : List (List Char), gs.length = n + 1 ∧
        (cs = joinDots gs ∨ cs = joinDots gs ++ ['\n']) ∧ ∀ g ∈ gs, pyGroup g := by
  induction n with
  | zero =>
    intro cs
    rw [matchQuad]
    constructor
    · intro h
      simp only [Bool.and_eq_true, Bool.or_eq_true, decide_eq_true_eq,
                 List.isEmpty_iff, beq_iff_eq] at h
      obtain ⟨⟨d1, d2⟩, hm⟩ := h
      refine ⟨[cs.takeWhile isPyDigit], rfl, ?_, ?_⟩
      · rcases hm with hm | hm
        · left
          conv_lhs => rw [← List.takeWhile_append_dropWhile isPyDigit cs]
          rw [hm, List.append_nil, joinDots]
        · right
          conv_lhs => rw [← List.takeWhile_append_dropWhile isPyDigit cs]
          rw [hm, joinDots]
      · intro g hg
        rcases List.mem_singleton.1 hg with rfl
        refine ⟨?_, d2, pred_of_mem_takeWhile cs⟩
        intro hnil
        rw [hnil] at d1
        exact absurd d1 (by simp)
    · rintro ⟨gs, hlen, hcs, hgood⟩
      rcases gs with _ | ⟨g, gs'⟩
      · cases hlen
      · rcases gs' with _ | ⟨g2, t2⟩
        · obtain ⟨hne, hle, hdig⟩ := hgood g (List.mem_singleton.2 rfl)
          have h1le : 1 ≤ g.length :=
            Nat.one_le_iff_ne_zero.2 fun h0 => hne (List.length_eq_zero.1 h0)
          rcases hcs with hcs | hcs
          · rw [hcs, joinDots, takeWhile_of_all g hdig, dropWhile_of_all g hdig]
            simp only [Bool.and_eq_true, decide_eq_true_eq]
            exact ⟨⟨h1le, hle⟩, by decide⟩
          · rw [hcs, joinDots, List.takeWhile_append_of_pos hdig,
                List.dropWhile_append_of_pos hdig]
            rw [List.takeWhile_cons, if_neg (by decide), List.append_nil,
                List.dropWhile_cons, if_neg (by decide)]
            simp only [Bool.and_eq_true, decide_eq_true_eq]
            exact ⟨⟨h1le, hle⟩, by decide⟩
        · simp only [List.length_cons, List.length_nil] at hlen; omega
  | succ n ih =>
    intro cs
    rw [matchQuad]
    constructor
    · intro h
      simp only [Bool.and_eq_true, decide_eq_true_eq, beq_iff_eq] at h
      obtain ⟨⟨d1, d2⟩, hhead, hm2⟩ := h
      rcases hrest : cs.dropWhile isPyDigit with _ | ⟨c, t⟩
      · rw [hrest] at hhead; cases hhead
      · rw [hrest] at hhead hm2
        simp only [List.head?_cons, Option.some.injEq] at hhead
        subst hhead
        simp only [List.tail_cons] at hm2
        rcases (ih t).1 hm2 with ⟨gs', hlen', hjoin', hgood'⟩
        refine ⟨cs.takeWhile isPyDigit :: gs', by rw [List.length_cons, hlen'], ?_, ?_⟩
        · rcases gs' with _ | ⟨g2, t2⟩
          · cases hlen'
          · rcases hjoin' with hj | hj
            · left
              rw [joinDots, ← hj]
              conv_lhs => rw [← List.takeWhile_append_dropWhile isPyDigit cs]
              rw [hrest]
            · right
              rw [joinDots, List.append_assoc, List.cons_append, ← hj]
              conv_lhs => rw [← List.takeWhile_append_dropWhile isPyDigit cs]
              rw [hrest]
        · intro g hg
          rcases List.mem_cons.1 hg with rfl | hg'
          · refine ⟨?_, d2, pred_of_mem_takeWhile cs⟩
            intro hnil
            rw [hnil] at d1
            exact absurd d1 (by simp)
          · exact hgood' g hg'
    · rintro ⟨gs, hlen, hcs, hgood⟩
      rcases gs with _ | ⟨g, gs'⟩
      · cases hlen
      · rcases gs' with _ | ⟨g2, t2⟩
        · simp only [List.length_cons, List.length_nil] at hlen; omega
        · obtain ⟨hne, hle, hdig⟩ := hgood g (List.mem_cons_self g _)
          have h1le : 1 ≤ g.length :=
            Nat.one_le_iff_ne_zero.2 fun h0 => hne (List.length_eq_zero.1 h0)
          have hgs' : ∀ g' ∈ g2 :: t2, pyGroup g' :=
            fun g' hg' => hgood g' (List.mem_cons_of_mem g hg')
          have hlen2 : (g2 :: t2).length = n + 1 := by simpa using hlen
          rcases hcs with hcs | hcs
          · rw [hcs, joinDots]
            rw [List.takeWhile_append_of_pos hdig, List.dropWhile_append_of_pos hdig]
            rw [List.takeWhile_cons, if_neg (by decide), List.append_nil,
                List.dropWhile_cons, if_neg (by decide)]
            simp only [Bool.and_eq_true, decide_eq_true_eq, List.head?_cons,
                       List.tail_cons, beq_self_eq_true, true_and]
            exact ⟨⟨h1le, hle⟩,
              (ih (joinDots (g2 :: t2))).2 ⟨g2 :: t2, hlen2, Or.inl rfl, hgs'⟩⟩
          · rw [hcs, joinDots, List.append_assoc, List.cons_append]
            rw [List.takeWhile_append_of_pos hdig, List.dropWhile_append_of_pos hdig]
            rw [List.takeWhile_cons, if_neg (by decide), List.append_nil,
                List.dropWhile_cons, if_neg (by decide)]
            simp only [Bool.and_eq_true, decide_eq_true_eq, List.head?_cons,
                       List.tail_cons, beq_self_eq_true, true_and]
            exact ⟨⟨h1le, hle⟩,
              (ih (joinDots (g2 :: t2) ++ ['\n'])).2
                ⟨g2 :: t2, hlen2, Or.inr rfl, hgs'⟩⟩

/-- A character of a period-joined group list is a period or lies in
one of the groups. -/
theorem mem_joinDots (c : Char) : ∀ gs : List (List Char),
    c ∈ joinDots gs → c = '.' ∨ ∃ g ∈ gs, c ∈ g := by
  intro gs
  induction gs with
  | nil => intro h; cases h
  | cons g gs' ih =>
    cases gs' with
    | nil =>
      intro h
      simp only [joinDots] at h
      exact Or.inr ⟨g, List.mem_singleton.2 rfl, h⟩
    | cons g2 t2 =>
      intro h
      simp only [joinDots] at h
      rcases List.mem_append.1 h with hg | hrest
      · exact Or.inr ⟨g, List.mem_cons_self _ _, hg⟩
      · rcases List.mem_cons.1 hrest with rfl | hj
        · exact Or.inl rfl
        · rcases ih hj with hdot | ⟨g', hg', hc⟩
          · exact Or.inl hdot
          · exact Or.inr ⟨g', List.mem_cons_of_mem g hg', hc⟩

/-- Parsing inverts the hex-digit printer. -/
theorem hexVal?_hexDigitChar (d : Nat) (h : d < 16) :
    hexVal? (hexDigitChar d) = some d := by
  interval_cases d <;> rfl

/-- Parsing inverts the four-digit hex printer below `0x10000`. -/
theorem hexVal4_hex4 (n : Nat) (h : n < 65536) :
    hexVal4 (hexDigitChar (n / 4096 % 16)) (hexDigitChar (n / 256 % 16))
      (hexDigitChar (n / 16 % 16)) (hexDigitChar (n % 16)) = some n := by
  rw [hexVal4, hexVal?_hexDigitChar (n / 4096 % 16) (by omega),
      hexVal?_hexDigitChar (n / 256 % 16) (by omega),
      hexVal?_hexDigitChar (n / 16 % 16) (by omega),
      hexVal?_hexDigitChar (n % 16) (by omega)]
  exact congrArg some (by omega)

/-- A `Char` is a Unicode scalar value: below the surrogate range or
between it and `0x110000`. -/
theorem char_toNat_valid (c : Char) :
    c.toNat < 55296 ∨ (57343 < c.toNat ∧ c.toNat < 1114112) := by
  have h := c.valid
  simp only [isValidChar, UInt32.lt_def, BitVec.lt_def] at h
  exact h

/-- Literal-character step of the string parser. -/
theorem parseStr_lit (c : Char) (X : List Char) (h1 : ¬ c = '"') (h2 : ¬ c = '\\')
    (h3 : 32 ≤ c.toNat) :
    parseStr (c :: X) = (parseStr X).map fun p => (c :: p.1, p.2) := by
  rw [parseStr.eq_2, if_neg h1, if_neg h2, if_neg (by omega)]

/-- Single `\uXXXX` escape step of the string parser, outside the
surrogate range. -/
theorem parseStr_u (n : Nat) (X : List Char) (hlt : n < 65536)
    (hns : n < 55296 ∨ 57343 < n) :
    parseStr ('\\' :: 'u' :: (hex4 n ++ X)) =
      (parseStr X).map fun p => (Char.ofNat n :: p.1, p.2) := by
  simp only [hex4, List.cons_append, List.nil_append]
  rw [parseStr.eq_2, if_neg (by decide), if_pos rfl, parseEsc.eq_1]
  simp only [hexVal4_hex4 n hlt]
  rw [if_neg (by omega), if_neg (by omega)]

/-- Surrogate-pair escape step of the string parser, for code points
at or above `0x10000`. -/
theorem parseStr_surrogate (n : Nat) (X : List Char) (h1 : 65536 ≤ n)
    (h2 : n < 1114112) :
    parseStr ('\\' :: 'u' :: (hex4 (55296 + (n - 65536) / 1024) ++
        ('\\' :: 'u' :: (hex4 (56320 + (n - 65536) % 1024) ++ X)))) =
      (parseStr X).map fun p => (Char.ofNat n :: p.1, p.2) := by
  simp only [hex4, List.cons_append, List.nil_append]
  rw [parseStr.eq_2, if_neg (by decide), if_pos rfl, parseEsc.eq_1]
  simp only [hexVal4_hex4 (55296 + (n - 65536) / 1024) (by omega)]
  rw [if_pos (by omega), parseLoSur.eq_1]
  simp only [hexVal4_hex4 (56320 + (n - 65536) % 1024) (by omega)]
  rw [if_pos (by omega)]
  have harith : 65536 + (55296 + (n - 65536) / 1024 - 55296) * 1024 +
      (56320 + (n - 65536) % 1024 - 56320) = n := by omega
  rw [harith]

/-- The string-body parser inverts the `ensure_ascii` string encoder,
for every string body and every continuation. -/
theorem parseStr_encChars (l : List Char) (rest : List Char) :
    parseStr (encChars l ++ ('"' :: rest)) = some (l, rest) := by
  induction l with
  | nil =>
    rw [encChars, List.nil_append, parseStr.eq_2, if_pos rfl]
  | cons c cs ih =>
    rw [encChars, List.append_assoc, encodeChar]
    split_ifs with h1 h2 h3 h4 h5 h6 h7 h8 h9
    · subst h1
      rw [List.cons_append, List.cons_append, List.nil_append, parseStr.eq_2,
          if_neg (by decide), if_pos rfl,
          parseEsc.eq_2 '"' _ (by intro _ _ _ _ _ hu _; exact absurd hu (by decide))]
      simp only [show escChar? '"' = some '"' from rfl]
      rw [ih]
      rfl
    · subst h2
      rw [List.cons_append, List.cons_append, List.nil_append, parseStr.eq_2,
          if_neg (by decide), if_pos rfl,
          parseEsc.eq_2 '\\' _ (by intro _ _ _ _ _ hu _; exact absurd hu (by decide))]
      simp only [show escChar? '\\' = some '\\' from rfl]
      rw [ih]
      rfl
    · rw [List.singleton_append, parseStr_lit c _ h1 h2 (by omega), ih]
      rfl
    · subst h4
      rw [List.cons_append, List.cons_append, List.nil_append, parseStr.eq_2,
          if_neg (by decide), if_pos rfl,
          parseEsc.eq_2 'b' _ (by intro _ _ _ _ _ hu _; exact absurd hu (by decide))]
      simp only [show escChar? 'b' = some '\x08' from rfl]
      rw [ih]
      rfl
    · subst h5
      rw [List.cons_append, List.cons_append, List.nil_append, parseStr.eq_2,
          if_neg (by decide), if_pos rfl,
          parseEsc.eq_2 't' _ (by intro _ _ _ _ _ hu _; exact absurd hu (by decide))]
      simp only [show escChar? 't' = some '\t' from rfl]
      rw [ih]
      rfl
    · subst h6
      rw [List.cons_append, List.cons_append, List.nil_append, parseStr.eq_2,
          if_neg (by decide), if_pos rfl,
          parseEsc.eq_2 'n' _ (by intro _ _ _ _ _ hu _; exact absurd hu (by decide))]
      simp only [show escChar? 'n' = some '\n' from rfl]
      rw [ih]
      rfl
    · subst h7
      rw [List.cons_append, List.cons_append, List.nil_append, parseStr.eq_2,
          if_neg (by decide), if_pos rfl,
          parseEsc.eq_2 'f' _ (by intro _ _ _ _ _ hu _; exact absurd hu (by decide))]
      simp only [show escChar? 'f' = some '\x0c' from rfl]
      rw [ih]
      rfl
    · subst h8
      rw [List.cons_append, List.cons_append, List.nil_append, parseStr.eq_2,
          if_neg (by decide), if_pos rfl,
          parseEsc.eq_2 'r' _ (by intro _ _ _ _ _ hu _; exact absurd hu (by decide))]
      simp only [show escChar? 'r' = some '\x0d' from rfl]
      rw [ih]
      rfl
    · simp only [List.cons_append, List.append_assoc]
      rw [parseStr_u c.toNat _ h9 (by rcases char_toNat_valid c with hv | hv <;> omega),
          ih, Option.map_some', Char.ofNat_toNat]
    · have hval := char_toNat_valid c
      simp only [List.cons_append, List.append_assoc]
      rw [parseStr_surrogate c.toNat _ (by omega) (by omega), ih,
          Option.map_some', Char.ofNat_toNat]

/-- `skipWs` passes over a run of whitespace characters. -/
theorem skipWs_append_ws (w : List Char) (r : List Char)
    (h : ∀ c ∈ w, isWsChar c = true) : skipWs (w ++ r) = skipWs r := by
  induction w with
  | nil => rfl
  | cons a t ih =>
    rw [List.cons_append]
    simp only [skipWs]
    rw [if_pos (h a (List.mem_cons_self a t))]
    exact ih fun c hc => h c (List.mem_cons_of_mem a hc)

/-- `skipWs` stops at a non-whitespace character. -/
theorem skipWs_not_ws (c : Char) (r : List Char) (h : isWsChar c = false) :
    skipWs (c :: r) = c :: r := by
  simp only [skipWs]
  rw [if_neg (by rw [h]; exact Bool.false_ne_true)]

/-- Indentation is all spaces. -/
theorem indentChars_ws (d : Nat) : ∀ c ∈ indentChars d, isWsChar c = true := by
  intro c hc
  rw [indentChars] at hc
  rw [List.eq_of_mem_replicate hc]
  decide

/-- `skipWs` passes over a newline followed by indentation. -/
theorem skipWs_nl_indent (k : Nat) (X : List Char) :
    skipWs ('\n' :: (indentChars k ++ X)) = skipWs X := by
  simp only [skipWs]
  rw [if_pos (by decide)]
  exact skipWs_append_ws _ _ (indentChars_ws k)

/-- Every serialized value starts with `n`, `"`, `[` or the opening
brace. -/
theorem dumpVal_head (v : PyVal) (d : Nat) :
    ∃ c t, dumpVal v d = c :: t ∧
      (c = 'n' ∨ c = '"' ∨ c = '[' ∨ c = '\x7b') := by
  cases v with
  | pnull => exact ⟨'n', _, rfl, by decide⟩
  | pstr s => exact ⟨'"', _, rfl, by decide⟩
  | plist xs =>
    cases xs with
    | nil => exact ⟨'[', _, rfl, by decide⟩
    | cons x t => exact ⟨'[', _, rfl, by decide⟩
  | pdict fs =>
    cases fs with
    | nil => exact ⟨'\x7b', _, rfl, by decide⟩
    | cons f t =>
      rcases f with ⟨k, w⟩
      exact ⟨'\x7b', _, rfl, by decide⟩

/-- A serialized value is not preceded by whitespace to skip. -/
theorem skipWs_dumpVal (v : PyVal) (d : Nat) (r : List Char) :
    skipWs (dumpVal v d ++ r) = dumpVal v d ++ r := by
  obtain ⟨c, t, heq, hc⟩ := dumpVal_head v d
  rw [heq, List.cons_append]
  exact skipWs_not_ws c _ (by rcases hc with rfl | rfl | rfl | rfl <;> decide)

/-- A serialized value does not start with a closing bracket. -/
theorem head_dumpVal_ne_rbrack (v : PyVal) (d : Nat) (r : List Char) :
    ¬ ((dumpVal v d ++ r).head? = some ']') := by
  obtain ⟨c, t, heq, hc⟩ := dumpVal_head v d
  rw [heq, List.cons_append, List.head?_cons]
  intro h
  rw [Option.some.injEq] at h
  rcases hc with rfl | rfl | rfl | rfl <;> cases h

/-- A serialized value does not start with a closing brace. -/
theorem head_dumpVal_ne_rbrace (v : PyVal) (d : Nat) (r : List Char) :
    ¬ ((dumpVal v d ++ r).head? = some '\x7d') := by
  obtain ⟨c, t, heq, hc⟩ := dumpVal_head v d
  rw [heq, List.cons_append, List.head?_cons]
  intro h
  rw [Option.some.injEq] at h
  rcases hc with rfl | rfl | rfl | rfl <;> cases h

/-- The parser depends on its input only through `skipWs`. -/
theorem parseRun_skipWs (fuel : Nat) (m : PMode) (cs cs' : List Char)
    (h : skipWs cs = skipWs cs') :
    parseRun fuel m cs = parseRun fuel m cs' := by
  cases fuel with
  | zero => rfl
  | succ f =>
    cases m with
    | val => rw [parseRun.eq_2, parseRun.eq_2, h]
    | elems => rw [parseRun.eq_3, parseRun.eq_3, h]
    | fields => rw [parseRun.eq_4, parseRun.eq_4, h]

/-- Parser step: `null`. -/
theorem parseRun_val_null (f : Nat) (rest : List Char) :
    parseRun (f + 1) PMode.val ('n' :: 'u' :: 'l' :: 'l' :: rest) =
      some (PyVal.pnull, rest) := rfl

/-- Parser step: a string literal. -/
theorem parseRun_val_str (f : Nat) (X : List Char) :
    parseRun (f + 1) PMode.val ('"' :: X) =
      (parseStr X).map fun p => (PyVal.pstr (String.mk p.1), p.2) := rfl

/-- Parser step: an array opener. -/
theorem parseRun_val_arr (f : Nat) (X : List Char) :
    parseRun (f + 1) PMode.val ('[' :: X) =
      (let cs2 := skipWs X
       if cs2.head? = some ']' then some (PyVal.plist [], cs2.tail)
       else
         match parseRun f PMode.val cs2 with
         | some (v, rest2) =>
           (match parseRun f PMode.elems rest2 with
            | some (PyVal.plist xs, rest3) => some (PyVal.plist (v :: xs), rest3)
            | _ => none)
         | none => none) := rfl

/-- Parser step: an object opener. -/
theorem parseRun_val_obj (f : Nat) (X : List Char) :
    parseRun (f + 1) PMode.val ('\x7b' :: X) =
      (let cs2 := skipWs X
       if cs2.head? = some '\x7d' then some (PyVal.pdict [], cs2.tail)
       else
         match cs2 with
         | '"' :: rest2 =>
           (match parseStr rest2 with
            | some (kchars, rest3) =>
              (match skipWs rest3 with
               | ':' :: rest4 =>
                 (match parseRun f PMode.val rest4 with
                  | some (v, rest5) =>
                    (match parseRun f PMode.fields rest5 with
                     | some (PyVal.pdict fs, rest6) =>
                         some (PyVal.pdict ((JKey.kstr (String.mk kchars), v) :: fs), rest6)
                     | _ => none)
                  | none => none)
               | _ => none)
            | none => none)
         | _ => none) := rfl

/-- Parser step: array tail at the closing bracket. -/
theorem parseRun_elems_close (f : Nat) (rest : List Char) :
    parseRun (f + 1) PMode.elems (']' :: rest) = some (PyVal.plist [], rest) := rfl

/-- Parser step: array tail at a separator. -/
theorem parseRun_elems_comma (f : Nat) (X : List Char) :
    parseRun (f + 1) PMode.elems (',' :: X) =
      (match parseRun f PMode.val X with
       | some (v, rest2) =>
         (match parseRun f PMode.elems rest2 with
          | some (PyVal.plist xs, rest3) => some (PyVal.plist (v :: xs), rest3)
          | _ => none)
       | none => none) := rfl

/-- Parser step: object tail at the closing brace. -/
theorem parseRun_fields_close (f : Nat) (rest : List Char) :
    parseRun (f + 1) PMode.fields ('\x7d' :: rest) = some (PyVal.pdict [], rest) := rfl

/-- Parser step: object tail at a separator. -/
theorem parseRun_fields_comma (f : Nat) (X : List Char) :
    parseRun (f + 1) PMode.fields (',' :: X) =
      (match skipWs X with
       | '"' :: rest2 =>
         (match parseStr rest2 with
          | some (kchars, rest3) =>
            (match skipWs rest3 with
             | ':' :: rest4 =>
               (match parseRun f PMode.val rest4 with
                | some (v, rest5) =>
                  (match parseRun f PMode.fields rest5 with
                   | some (PyVal.pdict fs, rest6) =>
                       some (PyVal.pdict ((JKey.kstr (String.mk kchars), v) :: fs), rest6)
                   | _ => none)
                | none => none)
             | _ => none)
          | none => none)
       | _ => none) := rfl

/-- `skipWs` keeps a leading quote. -/
theorem skipWs_quote (r : List Char) : skipWs ('"' :: r) = '"' :: r :=
  skipWs_not_ws _ _ (by decide)

/-- `skipWs` keeps a leading colon. -/
theorem skipWs_colon (r : List Char) : skipWs (':' :: r) = ':' :: r :=
  skipWs_not_ws _ _ (by decide)

/-- `skipWs` passes over a leading space. -/
theorem skipWs_space (r : List Char) : skipWs (' ' :: r) = skipWs r := by
  simp only [skipWs]
  rw [if_pos (by decide)]

/-- Every value needs at least one unit of fuel. -/
theorem one_le_pySize (v : PyVal) : 1 ≤ pySize v := by
  cases v <;> simp only [pySize] <;> omega

/-- Every array tail needs at least one unit of fuel. -/
theorem one_le_pySizeL (xs : List PyVal) : 1 ≤ pySizeL xs := by
  cases xs with
  | nil => simp [pySizeL]
  | cons x t => simp only [pySizeL]; omega

/-- Every object tail needs at least one unit of fuel. -/
theorem one_le_pySizeF (fs : List (JKey × PyVal)) : 1 ≤ pySizeF fs := by
  cases fs with
  | nil => simp [pySizeF]
  | cons f t => rcases f with ⟨k, w⟩; simp only [pySizeF]; omega

mutual

/-- The fuel measure is bounded by the serialized length. -/
theorem pySize_le_dumpVal (v : PyVal) (d : Nat) :
    pySize v ≤ (dumpVal v d).length := by
  cases v with
  | pnull => simp [pySize, dumpVal]
  | pstr s => simp [pySize, dumpVal, encodeString]
  | plist xs =>
    cases xs with
    | nil => simp [pySize, pySizeL, dumpVal]
    | cons x t =>
      have h1 := pySize_le_dumpVal x (d + 1)
      have h2 := pySizeL_le_dumpListRest t (d + 1)
      simp only [pySize, pySizeL, dumpVal, List.length_cons, List.length_append]
      omega
  | pdict fs =>
    cases fs with
    | nil => simp [pySize, pySizeF, dumpVal]
    | cons f t =>
      rcases f with ⟨k, w⟩
      have h1 := pySize_le_dumpVal w (d + 1)
      have h2 := pySizeF_le_dumpFieldsRest t (d + 1)
      simp only [pySize, pySizeF, dumpVal, List.length_cons, List.length_append]
      omega

/-- The array-tail fuel measure is bounded by its serialized length. -/
theorem pySizeL_le_dumpListRest (xs : List PyVal) (d : Nat) :
    pySizeL xs ≤ (dumpListRest xs d).length + 1 := by
  cases xs with
  | nil => simp [pySizeL, dumpListRest]
  | cons x t =>
    have h1 := pySize_le_dumpVal x d
    have h2 := pySizeL_le_dumpListRest t d
    simp only [pySizeL, dumpListRest, List.length_cons, List.length_append]
    omega

/-- The object-tail fuel measure is bounded by its serialized length. -/
theorem pySizeF_le_dumpFieldsRest (fs : List (JKey × PyVal)) (d : Nat) :
    pySizeF fs ≤ (dumpFieldsRest fs d).length + 1 := by
  cases fs with
  | nil => simp [pySizeF, dumpFieldsRest]
  | cons f t =>
    rcases f with ⟨k, w⟩
    have h1 := pySize_le_dumpVal w d
    have h2 := pySizeF_le_dumpFieldsRest t d
    simp only [pySizeF, dumpFieldsRest, List.length_cons, List.length_append]
    omega

end

/-- A key serializes as the JSON string of its rendered form. -/
theorem dumpKey_eq (k : JKey) : dumpKey k = encodeString (keyStr k) := by
  cases k <;> rfl

/-- Normalizing a key yields the string key of its rendered form. -/
theorem normKey_eq (k : JKey) : normKey k = JKey.kstr (keyStr k) := by
  cases k <;> rfl

mutual

/-- The parser inverts the serializer on every value, at every depth,
with every continuation, given fuel at least the value's size; keys come
back normalized. -/
theorem parse_dump_val (v : PyVal) (fuel d : Nat) (rest : List Char)
    (hf : pySize v ≤ fuel) :
    parseRun fuel PMode.val (dumpVal v d ++ rest) = some (pyNormalize v, rest) := by
  cases fuel with
  | zero =>
    exfalso
    have := one_le_pySize v
    omega
  | succ f =>
    cases v with
    | pnull =>
      simp only [dumpVal, pyNormalize, List.cons_append, List.nil_append]
      exact parseRun_val_null f rest
    | pstr s =>
      simp only [dumpVal, pyNormalize, encodeString, List.cons_append,
                 List.append_assoc, List.nil_append]
      rw [parseRun_val_str, parseStr_encChars]
      rfl
    | plist xs =>
      cases xs with
      | nil =>
        simp only [dumpVal, pyNormalize, pyNormalizeL, List.cons_append, List.nil_append]
        rfl
      | cons x t =>
        have hx : pySize x ≤ f := by
          have := one_le_pySizeL t
          simp only [pySize, pySizeL] at hf
          omega
        have ht : pySizeL t ≤ f := by
          have := one_le_pySize x
          simp only [pySize, pySizeL] at hf
          omega
        simp only [dumpVal, pyNormalize, pyNormalizeL, List.cons_append,
                   List.append_assoc, List.nil_append]
        rw [parseRun_val_arr]
        simp only [skipWs_nl_indent, skipWs_dumpVal]
        rw [if_neg (head_dumpVal_ne_rbrack x (d + 1) _)]
        rw [parse_dump_val x f (d + 1) _ hx]
        simp only [parse_dump_elems t f (d + 1) d rest ht]
    | pdict fs =>
      cases fs with
      | nil =>
        simp only [dumpVal, pyNormalize, pyNormalizeF, List.cons_append, List.nil_append]
        rfl
      | cons fkv t =>
        rcases fkv with ⟨k, w⟩
        have hw : pySize w ≤ f := by
          have := one_le_pySizeF t
          simp only [pySize, pySizeF] at hf
          omega
        have ht : pySizeF t ≤ f := by
          have := one_le_pySize w
          simp only [pySize, pySizeF] at hf
          omega
        simp only [dumpVal, pyNormalize, pyNormalizeF, dumpKey_eq, encodeString,
                   normKey_eq, List.cons_append, List.append_assoc, List.nil_append]
        rw [parseRun_val_obj]
        simp only [skipWs_nl_indent, skipWs_quote, List.head?_cons]
        rw [if_neg (by decide)]
        simp only [parseStr_encChars, skipWs_colon]
        rw [parseRun_skipWs f PMode.val _ _ (skipWs_space _)]
        rw [parse_dump_val w f (d + 1) _ hw]
        simp only [parse_dump_fields t f (d + 1) d rest ht]

/-- The parser inverts the serializer on the tail of a nonempty array. -/
theorem parse_dump_elems (xs : List PyVal) (fuel d d2 : Nat) (rest : List Char)
    (hf : pySizeL xs ≤ fuel) :
    parseRun fuel PMode.elems
        (dumpListRest xs d ++ ('\n' :: (indentChars d2 ++ (']' :: rest)))) =
      some (PyVal.plist (pyNormalizeL xs), rest) := by
  cases fuel with
  | zero =>
    exfalso
    have := one_le_pySizeL xs
    omega
  | succ f =>
    cases xs with
    | nil =>
      simp only [dumpListRest, pyNormalizeL, List.nil_append]
      rw [parseRun_skipWs (f + 1) PMode.elems _ (']' :: rest) (skipWs_nl_indent d2 _)]
      exact parseRun_elems_close f rest
    | cons y t =>
      have hy : pySize y ≤ f := by
        have := one_le_pySizeL t
        simp only [pySizeL] at hf
        omega
      have ht : pySizeL t ≤ f := by
        have := one_le_pySize y
        simp only [pySizeL] at hf
        omega
      simp only [dumpListRest, pyNormalizeL, List.cons_append, List.append_assoc]
      rw [parseRun_elems_comma]
      rw [parseRun_skipWs f PMode.val _ _ (skipWs_nl_indent d _)]
      rw [parse_dump_val y f d _ hy]
      simp only [parse_dump_elems t f d d2 rest ht]

/-- The parser inverts the serializer on the tail of a nonempty object. -/
theorem parse_dump_fields (fs : List (JKey × PyVal)) (fuel d d2 : Nat) (rest : List Char)
    (hf : pySizeF fs ≤ fuel) :
    parseRun fuel PMode.fields
        (dumpFieldsRest fs d ++ ('\n' :: (indentChars d2 ++ ('\x7d' :: rest)))) =
      some (PyVal.pdict (pyNormalizeF fs), rest) := by
  cases fuel with
  | zero =>
    exfalso
    have := one_le_pySizeF fs
    omega
  | succ f =>
    cases fs with
    | nil =>
      simp only [dumpFieldsRest, pyNormalizeF, List.nil_append]
      rw [parseRun_skipWs (f + 1) PMode.fields _ ('\x7d' :: rest) (skipWs_nl_indent d2 _)]
      exact parseRun_fields_close f rest
    | cons fkv t =>
      rcases fkv with ⟨k, w⟩
      have hw : pySize w ≤ f := by
        have := one_le_pySizeF t
        simp only [pySizeF] at hf
        omega
      have ht : pySizeF t ≤ f := by
        have := one_le_pySize w
        simp only [pySizeF] at hf
        omega
      simp only [dumpFieldsRest, pyNormalizeF, dumpKey_eq, encodeString, normKey_eq,
                 List.cons_append, List.append_assoc, List.nil_append]
      rw [parseRun_fields_comma]
      simp only [skipWs_nl_indent, skipWs_quote, parseStr_encChars, skipWs_colon]
      rw [parseRun_skipWs f PMode.val _ _ (skipWs_space _)]
      rw [parse_dump_val w f d _ hw]
      simp only [parse_dump_fields t f d d2 rest ht]

end

/-- Round trip through the artifact: parsing the serialized report
yields the report with integer keys normalized to strings. -/
theorem parse_dumpPy (v : PyVal) : parsePy (dumpPy v) = some (pyNormalize v) := by
  have hsize : pySize v ≤ (dumpVal v 0).length + 1 := by
    have := pySize_le_dumpVal v 0
    omega
  have h := parse_dump_val v ((dumpVal v 0).length + 1) 0 [] hsize
  rw [List.append_nil] at h
  simp only [parsePy, dumpPy]
  rw [h]
  rfl

/-- C9 (amended): the Target Classifier classifies an input as an
Address exactly when it is four groups of one to three Unicode decimal
digits separated by periods, optionally followed by a single trailing
newline (Python's `\d` matches any Unicode decimal digit and `$` also
matches just before a trailing newline); there is still no range
validation (`"999.999.999.999"` classifies as an Address), and the
classifier is a total pure Boolean function. -/
theorem C9_classifier_pattern_amended :
    (∀ s : String, is_ip_address s = true ↔ isDottedQuadPy s) ∧
    is_ip_address "999.999.999.999" = true ∧
    is_ip_address "127.0.0.1" = true ∧
    is_ip_address "example.com" = false := by
  refine ⟨?_, by decide, by decide, by decide⟩
  intro s
  rw [is_ip_address, isDottedQuadPy]
  exact matchQuad_iff 3 s.data

/-- C9 as stated is false on the code: `re.match(..., target)` with the
`$` anchor also accepts `"1.2.3.4\n"` (a single trailing newline), and
`\d` on a `str` pattern accepts any Unicode decimal digit, e.g. the
Arabic-Indic quad `"١.٢.٣.٤"`; neither input is four 1-to-3-digit
groups separated by periods in the claim's sense. -/
theorem C9_classifier_counterexample :
    is_ip_address "1.2.3.4\n" = true ∧ ¬ isDottedQuad "1.2.3.4\n" ∧
    is_ip_address "١.٢.٣.٤" = true ∧ ¬ isDottedQuad "١.٢.٣.٤" := by
  refine ⟨by decide, ?_, by decide, ?_⟩
  · rintro ⟨gs, -, hcs, hgood⟩
    have hmem : '\n' ∈ ("1.2.3.4\n").data := by decide
    rw [hcs] at hmem
    rcases mem_joinDots '\n' gs hmem with h | ⟨g, hg, hcg⟩
    · exact absurd h (by decide)
    · exact absurd ((hgood g hg).2.2 '\n' hcg) (by decide)
  · rintro ⟨gs, -, hcs, hgood⟩
    have hmem : '١' ∈ ("١.٢.٣.٤").data := by decide
    rw [hcs] at hmem
    rcases mem_joinDots '١' gs hmem with h | ⟨g, hg, hcg⟩
    · exact absurd h (by decide)
    · exact absurd ((hgood g hg).2.2 '١' hcg) (by decide)

/-- C10 (amended): serializing any report the program can produce and
parsing the artifact back yields the report with every integer port key
of `port_scan` replaced by its decimal string form (JSON object keys
are strings); the round trip is the identity exactly on reports with no
integer-keyed entry (e.g. no open ports). -/
theorem C10_roundtrip_amended (target : String) (env : Env) :
    parsePy (dumpPy (reconOutput target env)) =
      some (pyNormalize (reconOutput target env)) :=
  parse_dumpPy (reconOutput target env)

/-- C10 as stated is false on the code: in a run with port 21 open, the
report's `port_scan` dict has the integer key `21`; `json.dump` writes
it as the string `"21"`, so parsing the artifact back does not yield a
structurally identical value. -/
theorem C10_roundtrip_counterexample :
    parsePy (dumpPy (reconOutput "1.2.3.4" envC10)) ≠
      some (reconOutput "1.2.3.4" envC10) := by
  rw [parse_dumpPy]
  intro h
  rw [Option.some.injEq] at h
  have hlit : reconOutput "1.2.3.4" envC10 =
      PyVal.pdict
        [(JKey.kstr "target", PyVal.pstr "1.2.3.4"),
         (JKey.kstr "results", PyVal.pdict
           [(JKey.kstr "whois", PyVal.pstr "Lookup failed"),
            (JKey.kstr "dns_records", PyVal.pstr "Skipped for IP address"),
            (JKey.kstr "port_scan", PyVal.pdict
              [(JKey.kint 21, PyVal.pstr "ftp")])])] := rfl
  rw [hlit] at h
  simp only [pyNormalize, pyNormalizeF, pyNormalizeL, normKey] at h
  simp at h

/-- The keys `get_ip` writes: none for a literal address, exactly
`ip_address` otherwise. -/
theorem get_ip_keys (target : String) (resolve : String → Option String) :
    (get_ip target resolve).2.1.map Prod.fst =
      if is_ip_address target then [] else [JKey.kstr "ip_address"] := by
  unfold get_ip
  by_cases h : is_ip_address target
  · simp [h]
  · cases hr : resolve target <;> simp [h, hr]

/-- The WHOIS collector always writes the `whois` key. -/
theorem whoisEntry_fst (w : Option WhoisInfo) :
    (whoisEntry w).1 = JKey.kstr "whois" := by
  cases w <;> rfl

/-- The DNS collector always writes the `dns_records` key. -/
theorem dns_entry_fst (target : String)
    (dnsA : String → String → Option (List String)) :
    (get_dns_records target dnsA).1.1 = JKey.kstr "dns_records" := by
  unfold get_dns_records
  by_cases h : is_ip_address target <;> simp [h]

/-- The port scanner always writes the `port_scan` key. -/
theorem scan_entry_fst (ip : Option String) (connect : String → Nat → Bool)
    (service : Nat → Option String) :
    (scan_common_ports ip connect service).1.1 = JKey.kstr "port_scan" := by
  cases ip <;> rfl

/-- The keys the HTTP collector writes: exactly one for the first
protocol that succeeds, none when both fail. -/
theorem http_keys (target : String)
    (httpGet : String → Nat → Option (List (String × String))) :
    (get_http_headers target httpGet).1.map Prod.fst =
      (match httpGet (urlOf "https" target) 5 with
       | some _ => [JKey.kstr "https_headers"]
       | none =>
         match httpGet (urlOf "http" target) 5 with
         | some _ => [JKey.kstr "http_headers"]
         | none => []) := by
  simp only [get_http_headers, tryProtocols]
  cases h1 : httpGet (urlOf "https" target) 5 with
  | some hs => simp
  | none =>
    cases h2 : httpGet (urlOf "http" target) 5 with
    | some hs => simp [tryProtocols, h2]
    | none => simp [tryProtocols, h2]

/-- C5 (amended): the `whois`, `dns_records` and `port_scan` fields are
always present (with explicit markers on failure or skip); `ip_address`
is present exactly for Hostname targets and silently omitted for
Address targets; a headers field is present exactly for the first HTTP
protocol that succeeded and is silently omitted — with no marker — when
both protocols fail. -/
theorem C5_marker_invariant_amended (target : String) (env : Env) :
    (resultsEntries target env).map Prod.fst =
      ((if is_ip_address target then [] else [JKey.kstr "ip_address"]) ++
        [JKey.kstr "whois", JKey.kstr "dns_records", JKey.kstr "port_scan"]) ++
      (match env.httpGet (urlOf "https" target) 5 with
       | some _ => [JKey.kstr "https_headers"]
       | none =>
         match env.httpGet (urlOf "http" target) 5 with
         | some _ => [JKey.kstr "http_headers"]
         | none => []) := by
  unfold resultsEntries
  simp only [List.map_append, List.map_cons, List.map_nil, get_ip_keys, http_keys,
             whoisEntry_fst, dns_entry_fst, scan_entry_fst]
  simp [List.append_assoc]

/-- C5 as stated is false on the code: in a run where the hostname
resolves but both HTTP protocol attempts fail, the report carries no
`https_headers` or `http_headers` key and no marker for the failed
check — the field is silently omitted, so the serialized report does
not document that the HTTP check ran. -/
theorem C5_marker_invariant_counterexample :
    (resultsEntries "t.example" envC5).map Prod.fst =
      [JKey.kstr "ip_address", JKey.kstr "whois", JKey.kstr "dns_records",
       JKey.kstr "port_scan"] ∧
    envC5.httpGet (urlOf "https" "t.example") 5 = none ∧
    envC5.httpGet (urlOf "http" "t.example") 5 = none ∧
    (∀ v, (JKey.kstr "https_headers", v) ∉ resultsEntries "t.example" envC5) ∧
    (∀ v, (JKey.kstr "http_headers", v) ∉ resultsEntries "t.example" envC5) := by
  have hkeys : (resultsEntries "t.example" envC5).map Prod.fst =
      [JKey.kstr "ip_address", JKey.kstr "whois", JKey.kstr "dns_records",
       JKey.kstr "port_scan"] := rfl
  refine ⟨hkeys, rfl, rfl, ?_, ?_⟩
  · intro v hv
    have hm := List.mem_map_of_mem Prod.fst hv
    rw [hkeys] at hm
    have hm2 : JKey.kstr "https_headers" ∈
        [JKey.kstr "ip_address", JKey.kstr "whois", JKey.kstr "dns_records",
         JKey.kstr "port_scan"] := hm
    exact absurd hm2 (by decide)
  · intro v hv
    have hm := List.mem_map_of_mem Prod.fst hv
    rw [hkeys] at hm
    have hm2 : JKey.kstr "http_headers" ∈
        [JKey.kstr "ip_address", JKey.kstr "whois", JKey.kstr "dns_records",
         JKey.kstr "port_scan"] := hm
    exact absurd hm2 (by decide)

end Osint
